import Mathlib

/-!
Shallow embedding of the LocalDB.js SQL engine (src/localdb.js).

Modelling conventions, fixed once for the whole development:
* JavaScript strings are modelled as `List Char`; the `String` wrappers appear
  only at statement boundaries (via `String.data`), so that every concrete run
  reduces inside the kernel (the core `String` operations are well-founded
  recursive and do not).
* JavaScript numbers are modelled as integers (`Int`); every numeric literal
  exercised by the source and by this development is an integer.
* JavaScript objects (rows, schemas, the group table) are modelled as
  insertion-ordered association lists, with assignment overwriting in place,
  exactly like property assignment on a plain object.
* The regular expressions of the source are transcribed literally into a small
  `RE` syntax and executed by a backtracking matcher with the JavaScript
  priority order (leftmost match, greedy/lazy quantifiers, ordered
  alternation, atomic lookahead).  All letter-bearing regexes of the source
  carry the `i` flag, so `RE.lit` literals match case-insensitively, while
  `RE.chr` (used for escaped punctuation and for `LIKE` translations, which
  are built without the `i` flag) matches exactly.
-/

namespace LocalDB

/-- A JavaScript value as stored in a row: `null`, `undefined`, a number or a
string. -/
inductive Value where
  | vnull
  | vundef
  | num (n : Int)
  | str (s : String)
deriving DecidableEq, Repr

/-- A row: a JavaScript object, i.e. an insertion-ordered association list from
property names to values. -/
abbrev Row := List (String × Value)

/-- Property read `obj[key]`: the stored value, or `undefined` when absent. -/
def objGet (r : Row) (k : String) : Value :=
  match r.find? (fun p => p.1 = k) with
  | some p => p.2
  | none => Value.vundef

/-- Property write `obj[key] = v`: overwrite in place, else append (JavaScript
insertion order). -/
def objSet (r : Row) (k : String) (v : Value) : Row :=
  match r with
  | [] => [(k, v)]
  | p :: rest => if p.1 = k then (k, v) :: rest else p :: objSet rest k v

/-- `Object.keys` of a row. -/
def objKeys (r : Row) : List String := r.map (fun p => p.1)

/-- `Object.values` of a row. -/
def objValues (r : Row) : List Value := r.map (fun p => p.2)

/-- `Object.assign(target, source)`: assign every property of `source` onto
`target` in order. -/
def objAssign (target source : Row) : Row :=
  source.foldl (fun acc p => objSet acc p.1 p.2) target

/-! ## Character classes and structural string utilities -/

/-- JavaScript `\s` (the ASCII part, which is all the source ever meets). -/
def isWS (c : Char) : Bool :=
  c = ' ' || c = '\t' || c = '\n' || c = '\r' || c = '\x0b' || c = '\x0c'

/-- JavaScript `\w`: `[A-Za-z0-9_]`. -/
def isWordChar (c : Char) : Bool :=
  ('a' ≤ c && c ≤ 'z') || ('A' ≤ c && c ≤ 'Z') || ('0' ≤ c && c ≤ '9') || c = '_'

/-- JavaScript `\d`. -/
def isDigitChar (c : Char) : Bool := '0' ≤ c && c ≤ '9'

/-- `String.prototype.trim` on character lists. -/
def trimL (s : List Char) : List Char :=
  ((s.dropWhile isWS).reverse.dropWhile isWS).reverse

/-- `String.prototype.trim`, rebuilt structurally. -/
def jsTrim (s : String) : String := String.mk (trimL s.data)

/-- Case-insensitive character equality (ASCII, as in the `i` regex flag and
`toUpperCase` comparisons of the source). -/
def ciEq (a b : Char) : Bool := a.toLower = b.toLower

/-- `String.prototype.toUpperCase` on character lists (ASCII). -/
def upperL (s : List Char) : List Char := s.map Char.toUpper

/-- Case-insensitive prefix test on character lists. -/
def isPrefixCI : List Char → List Char → Bool
  | [], _ => true
  | _ :: _, [] => false
  | p :: ps, c :: cs => ciEq p c && isPrefixCI ps cs

/-- `query.toUpperCase().startsWith(k)` for an ASCII keyword `k`. -/
def startsWithCI (s : List Char) (k : String) : Bool :=
  isPrefixCI k.data s

/-- Exact (case-sensitive) prefix test. -/
def isPrefixX : List Char → List Char → Bool
  | [], _ => true
  | _ :: _, [] => false
  | p :: ps, c :: cs => p = c && isPrefixX ps cs

/-- `String.prototype.includes(sub)`: substring containment, exact case. -/
def includesL (sub : List Char) : List Char → Bool
  | [] => isPrefixX sub []
  | c :: cs => isPrefixX sub (c :: cs) || includesL sub cs

/-- Worker for `splitOnL`; `acc` is the reversed current piece and the fuel,
decremented once per consumed character, keeps the recursion structural. -/
def splitGo (sep : List Char) : Nat → List Char → List Char → List (List Char)
  | 0, acc, s => [acc.reverse ++ s]
  | fuel + 1, acc, s =>
    match s with
    | [] => [acc.reverse]
    | c :: cs =>
      if isPrefixX sep (c :: cs) && sep.length > 0 then
        acc.reverse :: splitGo sep fuel [] (List.drop (sep.length - 1) cs)
      else
        splitGo sep fuel (c :: acc) cs

/-- `str.split(sep)` for a literal (non-regex) separator, JavaScript
semantics: split at every occurrence, scanning left to right. -/
def splitOnL (sep s : List Char) : List (List Char) :=
  splitGo sep (s.length + 1) [] s

/-- Worker for `replaceFirstL` (same fuel discipline as `splitGo`). -/
def replGo (pat repl : List Char) : Nat → List Char → List Char
  | 0, s => s
  | fuel + 1, s =>
    match s with
    | [] => []
    | c :: cs =>
      if isPrefixX pat (c :: cs) && pat.length > 0 then
        repl ++ List.drop (pat.length - 1) cs
      else
        c :: replGo pat repl fuel cs

/-- Replace the first exact occurrence of `pat` by `repl` (JavaScript
`str.replace(searchString, replacement)`). -/
def replaceFirstL (pat repl s : List Char) : List Char :=
  replGo pat repl (s.length + 1) s

/-- Count occurrences of a character. -/
def countChar (c : Char) (s : List Char) : Nat :=
  (s.filter (fun d => d = c)).length

/-! ## JavaScript value semantics (the fragment the source exercises)

Numbers are modelled as integers: the decimal-integer fragment of
`ToNumber` is implemented, and every other numeric-looking shape (floats,
exponents, hex) is treated as non-numeric text, which is faithful for all the
data this development evaluates. -/

/-- Digits-to-integer accumulator. -/
def digitsToNat (acc : Nat) : List Char → Nat
  | [] => acc
  | c :: cs => digitsToNat (acc * 10 + (c.toNat - '0'.toNat)) cs

/-- The decimal-integer fragment of JavaScript `ToNumber` on a string:
optional whitespace, optional sign, digits.  Empty (after trimming) is `0`;
anything else is `NaN`, i.e. `none`. -/
def strToNumber (s : List Char) : Option Int :=
  match trimL s with
  | [] => some 0
  | '-' :: ds => if ds ≠ [] && ds.all isDigitChar then some (-(digitsToNat 0 ds : Int)) else none
  | '+' :: ds => if ds ≠ [] && ds.all isDigitChar then some ((digitsToNat 0 ds : Int)) else none
  | ds => if ds.all isDigitChar then some ((digitsToNat 0 ds : Int)) else none

/-- JavaScript `ToNumber` on a value (`none` = `NaN`). -/
def toNumber : Value → Option Int
  | Value.vnull => some 0
  | Value.vundef => none
  | Value.num n => some n
  | Value.str s => strToNumber s.data

/-- Lexicographic (code-unit) order on character lists: JavaScript `<` on two
strings. -/
def strLt : List Char → List Char → Bool
  | [], [] => false
  | [], _ :: _ => true
  | _ :: _, [] => false
  | a :: as_, b :: bs => if a = b then strLt as_ bs else a < b

/-- Numeric `<` after `ToNumber` (`none` = `NaN` makes it false). -/
def numLt : Option Int → Option Int → Bool
  | some x, some y => x < y
  | _, _ => false

/-- JavaScript `a < b` on values: string/string compares lexicographically,
everything else goes through `ToNumber`, with `NaN` making the comparison
false. -/
def jsLt (a b : Value) : Bool :=
  match a, b with
  | Value.str s, Value.str t => strLt s.data t.data
  | _, _ => numLt (toNumber a) (toNumber b)

/-- JavaScript `a > b` is `b < a` (both false on `NaN`). -/
def jsGt (a b : Value) : Bool := jsLt b a

/-- Whether `<`/`>` between the two values is a defined (non-`NaN`)
comparison; JavaScript `<=` and `>=` are the negated strict comparisons,
except that an undefined comparison is false. -/
def jsCmpDefined (a b : Value) : Bool :=
  match a, b with
  | Value.str _, Value.str _ => true
  | _, _ => (toNumber a).isSome && (toNumber b).isSome

/-- JavaScript `a <= b`. -/
def jsLe (a b : Value) : Bool := jsCmpDefined a b && !jsLt b a

/-- JavaScript `a >= b`. -/
def jsGe (a b : Value) : Bool := jsCmpDefined a b && !jsLt a b

/-- JavaScript loose equality `==` on the value fragment in use:
`null`/`undefined` equal each other and nothing else; same-type values compare
directly; a number and a string compare after `ToNumber` on the string. -/
def jsEq (a b : Value) : Bool :=
  match a, b with
  | Value.vnull, Value.vnull => true
  | Value.vnull, Value.vundef => true
  | Value.vundef, Value.vnull => true
  | Value.vundef, Value.vundef => true
  | Value.num x, Value.num y => x = y
  | Value.str s, Value.str t => s = t
  | Value.num x, Value.str t => (strToNumber t.data).any (fun y => x = y)
  | Value.str s, Value.num y => (strToNumber s.data).any (fun x => x = y)
  | _, _ => false

/-- `Array.prototype.includes` uses SameValueZero (strict, no coercion). -/
def sameValue (a b : Value) : Bool :=
  match a, b with
  | Value.vnull, Value.vnull => true
  | Value.vundef, Value.vundef => true
  | Value.num x, Value.num y => x = y
  | Value.str s, Value.str t => s = t
  | _, _ => false

/-- JavaScript truthiness on the value fragment in use. -/
def jsTruthy : Value → Bool
  | Value.vnull => false
  | Value.vundef => false
  | Value.num n => n ≠ 0
  | Value.str s => s ≠ ""

/-- Decimal digits of a natural number (fuel-bounded, kernel-reducible). -/
def natDigits : Nat → Nat → List Char → List Char
  | 0, _, acc => acc
  | fuel + 1, n, acc =>
    let d := Char.ofNat ('0'.toNat + n % 10)
    if n < 10 then d :: acc else natDigits fuel (n / 10) (d :: acc)

/-- Decimal rendering of an integer, as JavaScript `String(number)` renders
the integers in use. -/
def intToStr (n : Int) : String :=
  if n < 0 then String.mk ('-' :: natDigits (n.natAbs + 1) n.natAbs [])
  else String.mk (natDigits (n.natAbs + 1) n.natAbs [])

/-- JavaScript `String(v)`. -/
def valueToString : Value → String
  | Value.vnull => "null"
  | Value.vundef => "undefined"
  | Value.num n => intToStr n
  | Value.str s => s

/-! ## A small backtracking regular-expression engine

Each regex literal of the source is transcribed into this syntax and executed
with JavaScript semantics: leftmost match, greedy and lazy quantifiers by
backtracking, ordered alternation, atomic lookahead, numbered capture
groups. -/

/-- Single-character classes. -/
inductive Cls where
  | ws
  | wordc
  | digitc
  | dotc
  | nonwordc
deriving DecidableEq, Repr

/-- Regex syntax.  `lit` matches case-insensitively (the `i` flag); `chr`
matches one exact character. -/
inductive RE where
  | lit (s : List Char)
  | chr (c : Char)
  | cls (k : Cls)
  | cat (a b : RE)
  | alt (a b : RE)
  | opt (greedy : Bool) (a : RE)
  | star (greedy : Bool) (a : RE)
  | plus (greedy : Bool) (a : RE)
  | grp (i : Nat) (a : RE)
  | look (a : RE)
  | eos
deriving Repr

/-- Captured groups: group index to captured text (latest capture first). -/
abbrev Caps := List (Nat × List Char)

def clsTest : Cls → Char → Bool
  | Cls.ws, c => isWS c
  | Cls.wordc, c => isWordChar c
  | Cls.digitc, c => isDigitChar c
  | Cls.dotc, c => !(c = '\n' || c = '\r')
  | Cls.nonwordc, c => !isWordChar c

/-- Case-insensitive literal match; returns the rest of the input. -/
def litMatch : List Char → List Char → Option (List Char)
  | [], s => some s
  | _ :: _, [] => none
  | p :: ps, c :: cs => if ciEq p c then litMatch ps cs else none

/-- The backtracking matcher, in continuation-passing style.  The
continuation receives the remaining input and the captures; its failure
triggers backtracking into earlier alternatives.  `fuel` bounds the recursion
depth only. -/
def reMatch {α : Type} : Nat → RE → List Char → Caps →
    (List Char → Caps → Option α) → Option α
  | 0, _, _, _, _ => none
  | fuel + 1, re, s, caps, k =>
    match re with
    | RE.lit ls =>
      match litMatch ls s with
      | some rest => k rest caps
      | none => none
    | RE.chr c =>
      match s with
      | [] => none
      | c2 :: cs => if c = c2 then k cs caps else none
    | RE.cls kc =>
      match s with
      | [] => none
      | c2 :: cs => if clsTest kc c2 then k cs caps else none
    | RE.cat a b =>
      reMatch fuel a s caps (fun s2 caps2 => reMatch fuel b s2 caps2 k)
    | RE.alt a b =>
      match reMatch fuel a s caps k with
      | some r => some r
      | none => reMatch fuel b s caps k
    | RE.opt g a =>
      if g then
        match reMatch fuel a s caps k with
        | some r => some r
        | none => k s caps
      else
        match k s caps with
        | some r => some r
        | none => reMatch fuel a s caps k
    | RE.star g a =>
      if g then
        match reMatch fuel a s caps (fun s2 caps2 =>
            if s2.length < s.length then reMatch fuel (RE.star g a) s2 caps2 k
            else none) with
        | some r => some r
        | none => k s caps
      else
        match k s caps with
        | some r => some r
        | none =>
          reMatch fuel a s caps (fun s2 caps2 =>
            if s2.length < s.length then reMatch fuel (RE.star g a) s2 caps2 k
            else none)
    | RE.plus g a =>
      reMatch fuel a s caps (fun s2 caps2 => reMatch fuel (RE.star g a) s2 caps2 k)
    | RE.grp i a =>
      reMatch fuel a s caps (fun s2 caps2 =>
        k s2 ((i, s.take (s.length - s2.length)) :: caps2))
    | RE.look a =>
      match reMatch fuel a s caps (fun _ caps2 => some caps2) with
      | some caps2 => k s caps2
      | none => none
    | RE.eos =>
      match s with
      | [] => k s caps
      | _ :: _ => none

/-- Fuel that is ample for every transcription in this file: recursion depth
is bounded by pattern size times input length. -/
def reFuel (s : List Char) : Nat := 512 * (s.length + 4)

/-- The result of a successful (unanchored) regex search. -/
structure MatchRes where
  before : List Char
  matched : List Char
  after : List Char
  caps : Caps
deriving DecidableEq, Repr

/-- Capture group `i` of a match (`none` = the group did not participate,
JavaScript `undefined`). -/
def MatchRes.grp (m : MatchRes) (i : Nat) : Option (List Char) :=
  match m.caps.find? (fun p => p.1 = i) with
  | some p => some p.2
  | none => none

/-- Anchored match at the start of `s`. -/
def matchHere (re : RE) (s : List Char) : Option (List Char × Caps) :=
  reMatch (reFuel s) re s [] (fun rest caps => some (rest, caps))

/-- Unanchored leftmost search, i.e. JavaScript `str.match(re)` (also giving
the text before and after the match). -/
def reSearch (re : RE) (s : List Char) : Option MatchRes :=
  go [] s
where
  go (pre : List Char) : List Char → Option MatchRes
  | [] =>
    match matchHere re [] with
    | some (rest, caps) => some { before := pre.reverse, matched := [], after := rest, caps := caps }
    | none => none
  | c :: cs =>
    match matchHere re (c :: cs) with
    | some (rest, caps) =>
      some { before := pre.reverse,
             matched := (c :: cs).take ((c :: cs).length - rest.length),
             after := rest, caps := caps }
    | none => go (c :: pre) cs

/-- `re.test(str)`. -/
def reTest (re : RE) (s : List Char) : Bool := (reSearch re s).isSome

/-- `str.replace(re, repl)` (first match only, as without the `g` flag). -/
def reReplaceFirst (re : RE) (repl : List Char) (s : List Char) : List Char :=
  match reSearch re s with
  | some m => m.before ++ repl ++ m.after
  | none => s

/-- `str.replace(re, repl)` with the `g` flag: replace every match, resuming
after each replacement (every pattern used this way consumes at least one
character; fuel-bounded on the input length). -/
def reReplaceAll (fuel : Nat) (re : RE) (repl : List Char) (s : List Char) : List Char :=
  match fuel with
  | 0 => s
  | fuel + 1 =>
    match reSearch re s with
    | some m =>
      if m.matched.length = 0 then s
      else m.before ++ repl ++ reReplaceAll fuel re repl m.after
    | none => s

/-- `str.split(re)`, JavaScript semantics: split at every match and append
the listed capture groups of each separator match to the output (the source
only splits on `\s+(AND|OR)\s+`, whose single group always participates, and
on groupless separators). -/
def reSplit (fuel : Nat) (re : RE) (groups : List Nat) (s : List Char) :
    List (List Char) :=
  match fuel with
  | 0 => [s]
  | fuel + 1 =>
    match reSearch re s with
    | some m =>
      if m.matched.length = 0 then [s]
      else
        m.before :: (groups.map (fun i => (m.grp i).getD []) ++
          reSplit fuel re groups m.after)
    | none => [s]

/-! ## Transcription of the source's regex literals -/

/-- Sequence a list of regexes (empty literal = epsilon). -/
def reSeq (l : List RE) : RE := l.foldr RE.cat (RE.lit [])

/-- Case-insensitive keyword literal. -/
def rlit (s : String) : RE := RE.lit s.data

/-- `\s+`. -/
def wsP : RE := RE.plus true (RE.cls Cls.ws)

/-- `\s*`. -/
def wsS : RE := RE.star true (RE.cls Cls.ws)

/-- `(\w+)` capturing group `i`. -/
def wordG (i : Nat) : RE := RE.grp i (RE.plus true (RE.cls Cls.wordc))

/-- `\w+` without capture. -/
def wordP : RE := RE.plus true (RE.cls Cls.wordc)

/-- `(.+?)` capturing group `i`. -/
def lazyPlusG (i : Nat) : RE := RE.grp i (RE.plus false (RE.cls Cls.dotc))

/-- `(.*?)` capturing group `i`. -/
def lazyStarG (i : Nat) : RE := RE.grp i (RE.star false (RE.cls Cls.dotc))

/-- `(.+)` capturing group `i`. -/
def greedyPlusG (i : Nat) : RE := RE.grp i (RE.plus true (RE.cls Cls.dotc))

/-- `(.*)` capturing group `i`. -/
def greedyStarG (i : Nat) : RE := RE.grp i (RE.star true (RE.cls Cls.dotc))

/-- `(\d+)` capturing group `i`. -/
def digitsG (i : Nat) : RE := RE.grp i (RE.plus true (RE.cls Cls.digitc))

/-- `/CREATE\s+TABLE\s+(?:IF\s+NOT\s+EXISTS\s+)?(\w+)\s*\((.*)\)/i`. -/
def createTableRe : RE := reSeq
  [rlit "CREATE", wsP, rlit "TABLE", wsP,
   RE.opt true (reSeq [rlit "IF", wsP, rlit "NOT", wsP, rlit "EXISTS", wsP]),
   wordG 1, wsS, RE.chr '(', greedyStarG 2, RE.chr ')']

/-- `/(\w+)\s+\w+\s+PRIMARY\s+KEY/i`. -/
def primaryKeyRe : RE := reSeq
  [wordG 1, wsP, wordP, wsP, rlit "PRIMARY", wsP, rlit "KEY"]

/-- `/INSERT\s+INTO\s+(\w+)\s*\((.*?)\)\s*VALUES\s*\((.*?)\)/i`. -/
def insertRe : RE := reSeq
  [rlit "INSERT", wsP, rlit "INTO", wsP, wordG 1, wsS,
   RE.chr '(', lazyStarG 2, RE.chr ')', wsS, rlit "VALUES", wsS,
   RE.chr '(', lazyStarG 3, RE.chr ')']

/-- `/\s+UNION\s+/i`. -/
def unionSepRe : RE := reSeq [wsP, rlit "UNION", wsP]

/-- `/\s+UNION\s+ALL\s+/i`. -/
def unionAllSepRe : RE := reSeq [wsP, rlit "UNION", wsP, rlit "ALL", wsP]

/-- `/\s+JOIN\s+/i`. -/
def joinSepRe : RE := reSeq [wsP, rlit "JOIN", wsP]

/-- `/FROM\s+\(\s*(SELECT\s+.+?)\s*\)\s+AS\s+(\w+)/i`. -/
def derivedTableRe : RE := reSeq
  [rlit "FROM", wsP, RE.chr '(', wsS,
   RE.grp 1 (reSeq [rlit "SELECT", wsP, RE.plus false (RE.cls Cls.dotc)]),
   wsS, RE.chr ')', wsP, rlit "AS", wsP, wordG 2]

/-- The main SELECT regex:
`/SELECT\s+(DISTINCT\s+)?(.*?)\s+FROM\s+(\w+)(?:\s+WHERE\s+(.+?))?(?:\s+GROUP\s+BY\s+(.+?))?(?:\s+HAVING\s+(.+?))?(?:\s+ORDER\s+BY\s+(.+?))?(?:\s+LIMIT\s+(.+))?$/i`. -/
def selectRe : RE := reSeq
  [rlit "SELECT", wsP,
   RE.opt true (RE.grp 1 (reSeq [rlit "DISTINCT", wsP])),
   lazyStarG 2, wsP, rlit "FROM", wsP, wordG 3,
   RE.opt true (reSeq [wsP, rlit "WHERE", wsP, lazyPlusG 4]),
   RE.opt true (reSeq [wsP, rlit "GROUP", wsP, rlit "BY", wsP, lazyPlusG 5]),
   RE.opt true (reSeq [wsP, rlit "HAVING", wsP, lazyPlusG 6]),
   RE.opt true (reSeq [wsP, rlit "ORDER", wsP, rlit "BY", wsP, lazyPlusG 7]),
   RE.opt true (reSeq [wsP, rlit "LIMIT", wsP, greedyPlusG 8]),
   RE.eos]

/-- The JOIN clause regex:
`/FROM\s+(\w+)\s+(INNER\s+JOIN|LEFT\s+JOIN|RIGHT\s+JOIN|CROSS\s+JOIN|JOIN)\s+(\w+)(?:\s+ON\s+(.+?))?(?:\s+WHERE\s+(.+?))?(?:\s+ORDER\s+BY\s+(.+?))?(?:\s+LIMIT\s+(.+))?$/i`. -/
def fromJoinRe : RE := reSeq
  [rlit "FROM", wsP, wordG 1, wsP,
   RE.grp 2 (RE.alt (reSeq [rlit "INNER", wsP, rlit "JOIN"])
     (RE.alt (reSeq [rlit "LEFT", wsP, rlit "JOIN"])
       (RE.alt (reSeq [rlit "RIGHT", wsP, rlit "JOIN"])
         (RE.alt (reSeq [rlit "CROSS", wsP, rlit "JOIN"]) (rlit "JOIN"))))),
   wsP, wordG 3,
   RE.opt true (reSeq [wsP, rlit "ON", wsP, lazyPlusG 4]),
   RE.opt true (reSeq [wsP, rlit "WHERE", wsP, lazyPlusG 5]),
   RE.opt true (reSeq [wsP, rlit "ORDER", wsP, rlit "BY", wsP, lazyPlusG 6]),
   RE.opt true (reSeq [wsP, rlit "LIMIT", wsP, greedyPlusG 7]),
   RE.eos]

/-- `/SELECT\s+(.*?)\s+FROM/i`. -/
def selectColsRe : RE := reSeq [rlit "SELECT", wsP, lazyStarG 1, wsP, rlit "FROM"]

/-- `/(\w+)\.(\w+)\s*=\s*(\w+)\.(\w+)/` (no flag; letter-free literals). -/
def onClauseRe : RE := reSeq
  [wordG 1, RE.chr '.', wordG 2, wsS, RE.chr '=', wsS,
   wordG 3, RE.chr '.', wordG 4]

/-- `/UPDATE\s+(\w+)\s+SET\s+(.*?)(?:\s+WHERE\s+(.+))?$/i`. -/
def updateRe : RE := reSeq
  [rlit "UPDATE", wsP, wordG 1, wsP, rlit "SET", wsP, lazyStarG 2,
   RE.opt true (reSeq [wsP, rlit "WHERE", wsP, greedyPlusG 3]), RE.eos]

/-- `/DELETE\s+FROM\s+(\w+)(?:\s+WHERE\s+(.+))?$/i`. -/
def deleteRe : RE := reSeq
  [rlit "DELETE", wsP, rlit "FROM", wsP, wordG 1,
   RE.opt true (reSeq [wsP, rlit "WHERE", wsP, greedyPlusG 2]), RE.eos]

/-- `/(NOT\s+)?EXISTS\s*\((SELECT\s+.+?)\)(?=\s*(AND|OR|$))/i`. -/
def existsRe : RE := reSeq
  [RE.opt true (RE.grp 1 (reSeq [rlit "NOT", wsP])),
   rlit "EXISTS", wsS, RE.chr '(',
   RE.grp 2 (reSeq [rlit "SELECT", wsP, RE.plus false (RE.cls Cls.dotc)]),
   RE.chr ')',
   RE.look (reSeq [wsS, RE.grp 3 (RE.alt (rlit "AND") (RE.alt (rlit "OR") RE.eos))])]

/-- `/^(\w+\s+(?:NOT\s+)?IN\s*\()/i` (used anchored via `substr`). -/
def inProtectRe : RE :=
  RE.grp 1 (reSeq [wordP, wsP, RE.opt true (reSeq [rlit "NOT", wsP]),
    rlit "IN", wsS, RE.chr '('])

/-- `/\s+(AND|OR)\s+/i`. -/
def andOrRe : RE := reSeq
  [wsP, RE.grp 1 (RE.alt (rlit "AND") (rlit "OR")), wsP]

/-- `/EXISTS/i` (bare keyword test inside the condition loop). -/
def existsWordRe : RE := rlit "EXISTS"

/-- `/(\w+)\s+LIKE\s+(.+)/i`. -/
def likeRe : RE := reSeq [wordG 1, wsP, rlit "LIKE", wsP, greedyPlusG 2]

/-- `/(\w+)\s+NOT\s+IN\s*\((.*?)\)(?:\s|$)/i`. -/
def notInRe : RE := reSeq
  [wordG 1, wsP, rlit "NOT", wsP, rlit "IN", wsS, RE.chr '(', lazyStarG 2,
   RE.chr ')', RE.alt (RE.cls Cls.ws) RE.eos]

/-- `/(\w+)\s+IN\s*\((.*?)\)(?:\s|$)/i`. -/
def inRe : RE := reSeq
  [wordG 1, wsP, rlit "IN", wsS, RE.chr '(', lazyStarG 2,
   RE.chr ')', RE.alt (RE.cls Cls.ws) RE.eos]

/-- `/(\w+)\s+BETWEEN\s+(.+?)\s+AND\s+(.+?)(?=\s*$)/i`. -/
def betweenRe : RE := reSeq
  [wordG 1, wsP, rlit "BETWEEN", wsP, lazyPlusG 2, wsP, rlit "AND", wsP,
   lazyPlusG 3, RE.look (reSeq [wsS, RE.eos])]

/-- `/(\w+)\s+IS\s+(NOT\s+)?NULL/i`. -/
def isNullRe : RE := reSeq
  [wordG 1, wsP, rlit "IS", wsP,
   RE.opt true (RE.grp 2 (reSeq [rlit "NOT", wsP])), rlit "NULL"]

/-- `/COUNT\s*\(\s*\*\s*\)/i`. -/
def countStarRe : RE := reSeq
  [rlit "COUNT", wsS, RE.chr '(', wsS, RE.chr '*', wsS, RE.chr ')']

/-- `/COUNT\s*\(\s*(\w+)\s*\)/i`. -/
def countColRe : RE := reSeq
  [rlit "COUNT", wsS, RE.chr '(', wsS, wordG 1, wsS, RE.chr ')']

/-- `/UPPER\s*\(\s*(\w+)\s*\)/i`. -/
def upperRe : RE := reSeq
  [rlit "UPPER", wsS, RE.chr '(', wsS, wordG 1, wsS, RE.chr ')']

/-- `/LOWER\s*\(\s*(\w+)\s*\)/i`. -/
def lowerRe : RE := reSeq
  [rlit "LOWER", wsS, RE.chr '(', wsS, wordG 1, wsS, RE.chr ')']

/-- `/LENGTH\s*\(\s*(\w+)\s*\)/i`. -/
def lengthRe : RE := reSeq
  [rlit "LENGTH", wsS, RE.chr '(', wsS, wordG 1, wsS, RE.chr ')']

/-- `/CONCAT\s*\((.*)\)/i`. -/
def concatRe : RE := reSeq
  [rlit "CONCAT", wsS, RE.chr '(', greedyStarG 1, RE.chr ')']

/-- `/^(\w+)$/` (column-name test inside CONCAT). -/
def wordOnlyRe : RE := reSeq [wordG 1, RE.eos]

/-- `/(\d+)(?:\s+OFFSET\s+(\d+))?/i`. -/
def limitRe : RE := reSeq
  [digitsG 1, RE.opt true (reSeq [wsP, rlit "OFFSET", wsP, digitsG 2])]

/-- The dynamic correlation regex `new RegExp(table + "\\." + col + "\\b", "gi")`;
the trailing `\b` follows a word character, so it is the assertion that the
next character is not a word character (or that the input ends). -/
def correlateRe (table col : List Char) : RE := reSeq
  [RE.lit table, RE.chr '.', RE.lit col,
   RE.look (RE.alt RE.eos (RE.cls Cls.nonwordc))]

/-! ## Database state and the statement monad

The schema object `this.tables` and the `localStorage` row store are the two
pieces of state; `writes` is a log of every `saveTableData` call, recording
what was persisted (one entry per call, in order).  Statements run in `EDB`:
state threading plus exceptions that do **not** roll the state back, exactly
like a JavaScript `throw` in mutable code. -/

/-- Association-list read (JavaScript property access). -/
def assocGet {α : Type} (l : List (String × α)) (k : String) : Option α :=
  match l.find? (fun p => p.1 = k) with
  | some p => some p.2
  | none => none

/-- Association-list write (JavaScript property assignment: overwrite in
place, else append). -/
def assocSet {α : Type} : List (String × α) → String → α → List (String × α)
  | [], k, v => [(k, v)]
  | p :: rest, k, v => if p.1 = k then (k, v) :: rest else p :: assocSet rest k v

/-- Association-list delete (JavaScript `delete obj[k]`). -/
def assocDel {α : Type} (l : List (String × α)) (k : String) : List (String × α) :=
  l.filter (fun p => !(p.1 = k))

/-- A table's schema entry: `{ columns, primaryKey }`. -/
structure TableSchema where
  columns : List (String × String)
  primaryKey : Option String
deriving DecidableEq, Repr

/-- The full engine state. -/
structure DB where
  tables : List (String × TableSchema)
  store : List (String × List Row)
  writes : List (String × List Row)
deriving DecidableEq, Repr

/-- The statement monad: state plus non-rollback exceptions. -/
def EDB (α : Type) : Type := DB → Except String α × DB

instance : Monad EDB where
  pure a := fun db => (Except.ok a, db)
  bind x f := fun db =>
    match x db with
    | (Except.ok a, db2) => f a db2
    | (Except.error e, db2) => (Except.error e, db2)

/-- Throw (a JavaScript `throw new Error(e)`). -/
def throwE {α : Type} (e : String) : EDB α := fun db => (Except.error e, db)

/-- `try / catch`: the handler sees the state as the failed body left it. -/
def tryE {α : Type} (x : EDB α) (h : String → EDB α) : EDB α := fun db =>
  match x db with
  | (Except.ok a, db2) => (Except.ok a, db2)
  | (Except.error e, db2) => h e db2

/-- Read the current state. -/
def getDB : EDB DB := fun db => (Except.ok db, db)

/-- Replace the current state. -/
def setDB (db : DB) : EDB Unit := fun _ => (Except.ok (), db)

/-- Run a pure `Except` computation (errors become thrown errors). -/
def liftExc {α : Type} (x : Except String α) : EDB α := fun db => (x, db)

/-- JSON persistence drops `undefined`-valued properties; this is what a row
looks like after the `JSON.stringify`/`JSON.parse` round trip of the store. -/
def rowStripUndef (r : Row) : Row :=
  r.filter (fun p => !(p.2 = Value.vundef))

/-- Rows currently stored for a table (`getTableData`): the stored sequence
or `[]`. -/
def storeRows (db : DB) (name : String) : List Row :=
  (assocGet db.store name).getD []

/-- `getTableData` as a monadic read. -/
def getTableData (name : String) : EDB (List Row) := fun db =>
  (Except.ok (storeRows db name), db)

/-- `saveTableData`: serialize (dropping `undefined` fields) and store, and
log the persisted sequence. -/
def saveTableData (name : String) (data : List Row) : EDB Unit := fun db =>
  let ser := data.map rowStripUndef
  (Except.ok (),
   { db with store := assocSet db.store name ser,
             writes := db.writes ++ [(name, ser)] })

/-- `localStorage.removeItem(getTableKey(name))`. -/
def removeTableData (name : String) : EDB Unit := fun db =>
  (Except.ok (), { db with store := assocDel db.store name })

/-- Schema lookup `this.tables[name]`. -/
def getSchema (name : String) : EDB (Option TableSchema) := fun db =>
  (Except.ok (assocGet db.tables name), db)

/-- Schema assignment `this.tables[name] = s`. -/
def setSchema (name : String) (s : TableSchema) : EDB Unit := fun db =>
  (Except.ok (), { db with tables := assocSet db.tables name s })

/-- `delete this.tables[name]`. -/
def delSchema (name : String) : EDB Unit := fun db =>
  (Except.ok (), { db with tables := assocDel db.tables name })

/-- Decidable equality of `Except` results, for concrete evaluation. -/
instance {ε α : Type} [DecidableEq ε] [DecidableEq α] : DecidableEq (Except ε α) := fun x y =>
  match x, y with
  | Except.ok a, Except.ok b =>
    if h : a = b then isTrue (congrArg Except.ok h)
    else isFalse (fun hh => h (Except.ok.inj hh))
  | Except.error a, Except.error b =>
    if h : a = b then isTrue (congrArg Except.error h)
    else isFalse (fun hh => h (Except.error.inj hh))
  | Except.ok _, Except.error _ => isFalse (fun hh => Except.noConfusion hh)
  | Except.error _, Except.ok _ => isFalse (fun hh => Except.noConfusion hh)

/-- The result of one statement: a row sequence (SELECT) or a
`{ success, message }` record. -/
inductive QueryResult where
  | rows (rs : List Row)
  | msg (success : Bool) (message : String)
deriving DecidableEq, Repr

/-! ## Literal parsing -/

/-- Whether the (already trimmed) text is quoted by `q` at both ends, as in
`val.startsWith(q) && val.endsWith(q)`. -/
def quotedBy (q : Char) (v : List Char) : Bool :=
  match v with
  | [] => false
  | c :: _ => c = q && v.getLast? = some q

/-- `parseValue`: strip quotes, else the numeric check
(`!isNaN(val) && val !== ''`), else keep the text.  Numbers follow the
integer model of `strToNumber`. -/
def parseValue (val : List Char) : Value :=
  let v := trimL val
  if quotedBy '\'' v || quotedBy '"' v then
    Value.str (String.mk (v.drop 1).dropLast)
  else
    match strToNumber v with
    | some n => if v = [] then Value.str "" else Value.num n
    | none => Value.str (String.mk v)

/-- The quote-aware `VALUES` scanner (`parseValues`): characters are folded
with an in-string flag; commas outside quotes separate values. -/
def parseValuesGo (cur : List Char) (inString : Bool) (stringChar : Char)
    (acc : List Value) : List Char → List Value
  | [] => if cur ≠ [] then acc ++ [parseValue cur.reverse] else acc
  | c :: cs =>
    if (c = '\'' || c = '"') && !inString then
      parseValuesGo (c :: cur) true c acc cs
    else if c = stringChar && inString then
      parseValuesGo (c :: cur) false stringChar acc cs
    else if c = ',' && !inString then
      parseValuesGo [] inString stringChar (acc ++ [parseValue cur.reverse]) cs
    else
      parseValuesGo (c :: cur) inString stringChar acc cs

/-- `parseValues(valuesStr)`. -/
def parseValues (valuesStr : List Char) : List Value :=
  parseValuesGo [] false ' ' [] valuesStr

/-- `formatValue`: render a value back into SQL literal text for
correlation. -/
def formatValue : Value → List Char
  | Value.vnull => "NULL".data
  | Value.vundef => "NULL".data
  | Value.str s => '\'' :: s.data ++ ['\'']
  | Value.num n => (intToStr n).data

/-! ## LIKE patterns -/

/-- The translated `LIKE` regex: the source replaces `%` by `.*` and `_` by
`.` and compiles `'^' + p + '$'` without flags, so `%` is an unbounded
wildcard, `_` and a literal `.` match any single character, and every other
character of the patterns in use matches itself, case-sensitively.  (Patterns
containing other regex metacharacters would change the compiled regex in
JavaScript and are outside this model.) -/
def likeRegex : List Char → RE
  | [] => RE.lit []
  | '%' :: ps => RE.cat (RE.star true (RE.cls Cls.dotc)) (likeRegex ps)
  | '_' :: ps => RE.cat (RE.cls Cls.dotc) (likeRegex ps)
  | '.' :: ps => RE.cat (RE.cls Cls.dotc) (likeRegex ps)
  | c :: ps => RE.cat (RE.chr c) (likeRegex ps)

/-- `regex.test(s)` for the anchored translated pattern. -/
def likeTest (pattern s : List Char) : Bool :=
  (reMatch (reFuel (pattern ++ s)) (RE.cat (likeRegex pattern) RE.eos) s []
    (fun _ _ => some ())).isSome

/-! ## ORDER BY, LIMIT, DISTINCT -/

/-- Split on whitespace runs (`split(/\s+/)` on trimmed text). -/
def splitWSL (s : List Char) : List (List Char) :=
  go [] s
where
  go (cur : List Char) : List Char → List (List Char)
  | [] => if cur = [] then [] else [cur.reverse]
  | c :: cs =>
    if isWS c then
      if cur = [] then go [] cs else cur.reverse :: go [] cs
    else go (c :: cur) cs

/-- `col.includes('.') ? col.split('.')[1] : col`. -/
def dotTail (col : List Char) : List Char :=
  if includesL ['.'] col then (splitOnL ['.'] col).getD 1 [] else col

/-- One ORDER BY key: column (dot-stripped) and the uppercased direction
token. -/
structure SortKey where
  col : String
  dir : List Char
deriving DecidableEq, Repr

/-- Parse the ORDER BY clause. -/
def parseOrderBy (clause : List Char) : List SortKey :=
  (splitOnL [','] clause).map (fun p =>
    let toks := splitWSL (trimL p)
    let col := toks.getD 0 []
    let dir := upperL (toks.getD 1 "ASC".data)
    { col := String.mk (dotTail col), dir := dir })

/-- The comparator body of `orderBy`: first non-zero key comparison wins;
`DESC` negates. -/
def cmpRow (keys : List SortKey) (a b : Row) : Int :=
  match keys with
  | [] => 0
  | k :: rest =>
    let va := objGet a k.col
    let vb := objGet b k.col
    let c : Int := if jsLt va vb then -1 else if jsGt va vb then 1 else 0
    if c ≠ 0 then (if k.dir = "DESC".data then -c else c) else cmpRow rest a b

/-- `orderBy`: `data.sort(cmp)`; JavaScript array sort is stable (ES2019),
modelled by a stable merge sort on `cmp ≤ 0`. -/
def orderBy (data : List Row) (clause : List Char) : List Row :=
  let keys := parseOrderBy clause
  data.mergeSort (fun a b => cmpRow keys a b ≤ 0)

/-- `parseInt`: optional whitespace and sign, then the leading digit run
(`none` = `NaN`). -/
def jsParseInt (s : List Char) : Option Int :=
  match s.dropWhile isWS with
  | '-' :: ds =>
    let run := ds.takeWhile isDigitChar
    if run = [] then none else some (-(digitsToNat 0 run : Int))
  | '+' :: ds =>
    let run := ds.takeWhile isDigitChar
    if run = [] then none else some ((digitsToNat 0 run : Int))
  | ds =>
    let run := ds.takeWhile isDigitChar
    if run = [] then none else some ((digitsToNat 0 run : Int))

/-- `Array.prototype.slice(start, end)` for the non-negative indices the
LIMIT clauses in use produce. -/
def sliceL (start stop : Int) (data : List Row) : List Row :=
  (data.take stop.toNat).drop start.toNat

/-- `applyLimit`: the `LIMIT offset, count` form, else the
`LIMIT n [OFFSET m]` regex. -/
def applyLimit (data : List Row) (limitClause : List Char) : List Row :=
  let parts := (splitOnL [','] limitClause).map (fun p => jsParseInt (trimL p))
  if parts.length = 2 then
    let offset := (parts.getD 0 none).getD 0
    let count := (parts.getD 1 none).getD 0
    sliceL offset (offset + count) data
  else
    match reSearch limitRe limitClause with
    | some m =>
      let count : Int := (digitsToNat 0 ((m.grp 1).getD []) : Nat)
      let offset : Int :=
        match m.grp 2 with
        | some d => (digitsToNat 0 d : Nat)
        | none => 0
      sliceL offset (offset + count) data
    | none => data

/-- JSON rendering of a value (for `JSON.stringify` row keys); the string
escape covers the characters the data in use can contain. -/
def jsonVal : Value → List Char
  | Value.vnull => "null".data
  | Value.vundef => "undefined".data
  | Value.num n => (intToStr n).data
  | Value.str s => '"' :: (s.data.flatMap (fun c =>
      if c = '"' then ['\\', '"'] else if c = '\\' then ['\\', '\\'] else [c])) ++ ['"']

/-- `JSON.stringify(row)`: `undefined` fields are dropped. -/
def jsonRow (r : Row) : List Char :=
  "\x7b".data ++
    (List.intercalate ",".data
      ((rowStripUndef r).map (fun p => jsonVal (Value.str p.1) ++ ":".data ++ jsonVal p.2))) ++
  "\x7d".data

/-- `Array.prototype.join('|')` renders `null`/`undefined` as empty. -/
def valueToJoinString : Value → List Char
  | Value.vnull => []
  | Value.vundef => []
  | Value.num n => (intToStr n).data
  | Value.str s => s.data

/-- `vals.join('|')`. -/
def joinVals (vs : List Value) : List Char :=
  List.intercalate ['|'] (vs.map valueToJoinString)

/-- Deduplicating filter: keep the first occurrence of each key. -/
def dedupBy (key : Row → List Char) (data : List Row) : List Row :=
  go [] data
where
  go (seen : List (List Char)) : List Row → List Row
  | [] => []
  | r :: rs =>
    if seen.contains (key r) then go seen rs
    else r :: go (key r :: seen) rs

/-- `applyDistinct`: full-row `JSON.stringify` keys for `*`, else the listed
columns joined by `|`. -/
def applyDistinct (data : List Row) (columns : List Char) : List Row :=
  if trimL columns = ['*'] then
    dedupBy jsonRow data
  else
    let cols := (splitOnL [','] columns).map (fun c => String.mk (trimL c))
    dedupBy (fun row => joinVals (cols.map (fun c => objGet row c))) data

/-! ## Projection expressions -/

/-- `evaluateExpression(expr, row)`: aggregate-name lookups, the scalar
functions, qualified names, plain columns — in the source's branch order. -/
def evaluateExpression (expr0 : List Char) (row : Row) : Value :=
  let expr := trimL expr0
  match reSearch countStarRe expr with
  | some _ =>
    if objGet row "COUNT(*)" ≠ Value.vundef then objGet row "COUNT(*)" else Value.num 1
  | none =>
  match reSearch countColRe expr with
  | some m =>
    let key := String.mk m.matched
    if objGet row key ≠ Value.vundef then objGet row key else Value.num 0
  | none =>
  match reSearch upperRe expr with
  | some m =>
    let col := String.mk ((m.grp 1).getD [])
    if jsTruthy (objGet row col) then
      Value.str (String.mk (upperL (valueToString (objGet row col)).data))
    else Value.vnull
  | none =>
  match reSearch lowerRe expr with
  | some m =>
    let col := String.mk ((m.grp 1).getD [])
    if jsTruthy (objGet row col) then
      Value.str (String.mk ((valueToString (objGet row col)).data.map Char.toLower))
    else Value.vnull
  | none =>
  match reSearch lengthRe expr with
  | some m =>
    let col := String.mk ((m.grp 1).getD [])
    if jsTruthy (objGet row col) then
      Value.num ((valueToString (objGet row col)).data.length : Nat)
    else Value.num 0
  | none =>
  match reSearch concatRe expr with
  | some m =>
    let parts := (splitOnL [','] ((m.grp 1).getD [])).map (fun p =>
      let t := trimL p
      match matchHere wordOnlyRe t with
      | some _ =>
        if jsTruthy (objGet row (String.mk t)) then objGet row (String.mk t)
        else Value.str ""
      | none => parseValue t)
    Value.str (String.mk (parts.map valueToJoinString).flatten)
  | none =>
  if includesL ['.'] expr then
    objGet row (String.mk ((splitOnL ['.'] expr).getD 1 []))
  else
    objGet row (String.mk expr)

/-! ## Joins -/

/-- `mergeRows`: namespace both rows' keys as `table.column` into one
object. -/
def mergeRows (row1 row2 : Row) (t1 t2 : String) : Row :=
  let m1 := row1.foldl (fun acc p => objSet acc (t1 ++ "." ++ p.1) p.2) []
  row2.foldl (fun acc p => objSet acc (t2 ++ "." ++ p.1) p.2) m1

/-- The null row used by the outer joins: one `null` per field name of the
first row of the opposite table (shape by example). -/
def nullRowOf (d : List Row) : Row :=
  (objKeys (d.headD [])).map (fun k => (k, Value.vnull))

/-- The LEFT JOIN loop: every row of `d1` merged with each match, or with the
null row when nothing matches. -/
def leftJoinRows (d1 d2 : List Row) (t1 t2 : String) (k1 k2 : String) : List Row :=
  d1.flatMap (fun r1 =>
    let ms := d2.filter (fun r2 => jsEq (objGet r1 k1) (objGet r2 k2))
    if ms.isEmpty then [mergeRows r1 (nullRowOf d2) t1 t2]
    else ms.map (fun r2 => mergeRows r1 r2 t1 t2))

/-- The INNER JOIN loop. -/
def innerJoinRows (d1 d2 : List Row) (t1 t2 : String) (k1 k2 : String) : List Row :=
  d1.flatMap (fun r1 =>
    (d2.filter (fun r2 => jsEq (objGet r1 k1) (objGet r2 k2))).map
      (fun r2 => mergeRows r1 r2 t1 t2))

/-- The RIGHT JOIN loop (symmetric to LEFT). -/
def rightJoinRows (d1 d2 : List Row) (t1 t2 : String) (k1 k2 : String) : List Row :=
  d2.flatMap (fun r2 =>
    let ms := d1.filter (fun r1 => jsEq (objGet r1 k1) (objGet r2 k2))
    if ms.isEmpty then [mergeRows (nullRowOf d1) r2 t1 t2]
    else ms.map (fun r1 => mergeRows r1 r2 t1 t2))

/-- ASCII lower-casing for the case-insensitive table-name comparisons of the
ON clause. -/
def lowEq (a b : String) : Bool :=
  a.data.map Char.toLower = b.data.map Char.toLower

/-- `performJoin`: CROSS is a product; otherwise parse the ON clause, resolve
which side each qualifier names (the source's swap logic, transcribed as is),
and run the nested loops.  A missing ON clause on a non-CROSS type crashes in
the source (`onClause.match` on `undefined`); it is modelled as the error the
caller would see as a failure. -/
def performJoin (data1 data2 : List Row) (table1Name table2Name : String)
    (onClause : Option (List Char)) (joinType : String) :
    Except String (List Row) :=
  if joinType = "CROSS JOIN" then
    Except.ok (data1.flatMap (fun r1 => data2.map (fun r2 =>
      mergeRows r1 r2 table1Name table2Name)))
  else
    match onClause with
    | none => Except.error "Invalid ON clause syntax"
    | some oc =>
      match reSearch onClauseRe oc with
      | none => Except.error "Invalid ON clause syntax"
      | some m =>
        let t1 := String.mk ((m.grp 1).getD [])
        let col1 := String.mk ((m.grp 2).getD [])
        let t2 := String.mk ((m.grp 3).getD [])
        let col2 := String.mk ((m.grp 4).getD [])
        let table1 := if lowEq t1 table1Name then table1Name else table2Name
        let table2 := if lowEq t2 table1Name then table1Name else table2Name
        let key1 := if lowEq t1 table1Name then col1 else col2
        let key2 := if lowEq t2 table1Name then col2 else col1
        let data1Actual := if table1 = table1Name then data1 else data2
        let data2Actual := if table2 = table1Name then data1 else data2
        if joinType = "INNER JOIN" || joinType = "JOIN" then
          Except.ok (innerJoinRows data1Actual data2Actual table1 table2 key1 key2)
        else if joinType = "LEFT JOIN" then
          Except.ok (leftJoinRows data1Actual data2Actual table1 table2 key1 key2)
        else if joinType = "RIGHT JOIN" then
          Except.ok (rightJoinRows data1Actual data2Actual table1 table2 key1 key2)
        else
          Except.ok []

/-! ## Correlation -/

/-- `correlateSubquery`: substitute every `table.column` occurrence by the
outer row's literal. -/
def correlateSubquery (subq : List Char) (row : Row) (tableName : Option String) :
    List Char :=
  match tableName with
  | none => subq
  | some t =>
    row.foldl (fun q p =>
      reReplaceAll (q.length + 1) (correlateRe t.data p.1.data) (formatValue p.2) q)
      subq

/-! ## Non-recursive statement bodies -/

/-- Monadic filter in source order: the predicate runs left to right and its
exception aborts the rest, like `Array.prototype.filter` with a throwing
callback. -/
def filterE {α : Type} (p : α → EDB Bool) : List α → EDB (List α)
  | [] => pure []
  | x :: xs => do
    let b ← p x
    let rest ← filterE p xs
    pure (if b then x :: rest else rest)

/-- `extractPrimaryKey(columnsStr)`. -/
def extractPrimaryKey (columnsStr : List Char) : Option String :=
  (reSearch primaryKeyRe columnsStr).map (fun m => String.mk ((m.grp 1).getD []))

/-- `createTable(query)`. -/
def createTable (q : List Char) : EDB QueryResult := do
  match reSearch createTableRe q with
  | none => throwE "Invalid CREATE TABLE syntax"
  | some m =>
    let tableName := String.mk ((m.grp 1).getD [])
    let columnsStr := (m.grp 2).getD []
    let sc ← getSchema tableName
    if sc ≠ none then throwE ("Table " ++ tableName ++ " already exists") else do
    let columns := (splitOnL [','] columnsStr).foldl (fun acc col =>
      let parts := splitWSL (trimL col)
      assocSet acc (String.mk (parts.getD 0 []))
        (String.mk (List.intercalate [' '] (parts.drop 1)))) []
    setSchema tableName { columns := columns, primaryKey := extractPrimaryKey columnsStr }
    saveTableData tableName []
    pure (QueryResult.msg true ("Table " ++ tableName ++ " created"))

/-- The positional row of an INSERT: `row[col] = values[index]`, missing
positions being `undefined`. -/
def buildInsertRow (columns : List String) (values : List Value) : Row :=
  columns.enum.foldl (fun r p => objSet r p.2 (values.getD p.1 Value.vundef)) []

/-- The INSERT body after the statement regex has been taken apart. -/
def insertBody (tableName : String) (colsStr valsStr : List Char) : EDB QueryResult := do
  let columns := (splitOnL [','] colsStr).map (fun c => String.mk (trimL c))
  let values := parseValues valsStr
  let sc ← getSchema tableName
  if sc = none then throwE ("Table " ++ tableName ++ " does not exist") else do
  let row := buildInsertRow columns values
  let data ← getTableData tableName
  saveTableData tableName (data ++ [row])
  pure (QueryResult.msg true ("1 row inserted into " ++ tableName))

/-- `insert(query)`. -/
def insert (q : List Char) : EDB QueryResult := do
  match reSearch insertRe q with
  | none => throwE "Invalid INSERT syntax"
  | some m =>
    insertBody (String.mk ((m.grp 1).getD [])) ((m.grp 2).getD []) ((m.grp 3).getD [])

/-- Parse the SET clause of an UPDATE into an updates object. -/
def parseSetClause (setClause : List Char) : Row :=
  (splitOnL [','] setClause).foldl (fun acc part =>
    let kv := (splitOnL ['='] part).map trimL
    objSet acc (String.mk (kv.getD 0 [])) (parseValue (kv.getD 1 []))) []

/-- The UPDATE body, with the row predicate (`this.evaluateWhere` closed over
the table name) passed explicitly: map every row, assigning the updates where
the predicate holds, then persist the whole sequence once. -/
def updateBody (evalW : Row → List Char → EDB Bool) (tableName : String)
    (setClause : List Char) (whereClause : Option (List Char)) : EDB QueryResult := do
  let sc ← getSchema tableName
  if sc = none then throwE ("Table " ++ tableName ++ " does not exist") else do
  let updates := parseSetClause setClause
  let data ← getTableData tableName
  let acc ← data.foldlM (fun acc row => do
    let b ← match whereClause with
      | none => pure true
      | some w => evalW row w
    if b then pure (acc.1 ++ [objAssign row updates], acc.2 + 1)
    else pure (acc.1 ++ [row], acc.2)) (([] : List Row), (0 : Nat))
  saveTableData tableName acc.1
  pure (QueryResult.msg true (intToStr (acc.2 : Int) ++ " rows updated in " ++ tableName))

/-- The DELETE body: keep the rows where the predicate fails, persist once. -/
def deleteBody (evalW : Row → List Char → EDB Bool) (tableName : String)
    (whereClause : Option (List Char)) : EDB QueryResult := do
  let sc ← getSchema tableName
  if sc = none then throwE ("Table " ++ tableName ++ " does not exist") else do
  let data ← getTableData tableName
  let initialCount := data.length
  let newData ← match whereClause with
    | none => pure ([] : List Row)
    | some w => filterE (fun row => do
        let b ← evalW row w
        pure (!b)) data
  saveTableData tableName newData
  pure (QueryResult.msg true
    (intToStr ((initialCount - newData.length : Nat) : Int) ++ " rows deleted from " ++ tableName))

/-! ## GROUP BY -/

/-- One group under construction: its rows and its key fields. -/
structure Group where
  rows : List Row
  keys : Row
deriving DecidableEq, Repr

/-- Whether a property key is an array index, which V8 enumerates before the
other keys, in ascending numeric order (canonical digit strings; the 2^32
bound is irrelevant at the sizes in use). -/
def isArrayIndexKey (k : List Char) : Bool :=
  k ≠ [] && k.all isDigitChar && (k = ['0'] || !(k.headD '0' = '0'))

/-- Stable insertion into a list sorted by a numeric key (strictly-less keeps
equal keys in arrival order). -/
def insSorted {α : Type} (keyOf : α → Nat) (x : α) : List α → List α
  | [] => [x]
  | y :: ys => if keyOf x < keyOf y then x :: y :: ys else y :: insSorted keyOf x ys

/-- `Object.values` of an object with the given (string) keys: array-index
keys first in ascending numeric order, then the rest in insertion order. -/
def jsObjectValuesL {α : Type} (l : List (List Char × α)) : List α :=
  let idx := l.filter (fun p => isArrayIndexKey p.1)
  let rest := l.filter (fun p => !isArrayIndexKey p.1)
  ((idx.foldl (fun acc x => insSorted (fun p => digitsToNat 0 p.1) x acc) []) ++ rest).map
    (fun p => p.2)

/-- The column name a group-by item reads from a row. -/
def groupColName (col : List Char) : String := String.mk (dotTail col)

/-- `groupBy(data, groupByClause, havingClause, tableName)`: partition by the
joined key string, then build each output row from the key fields plus the
remaining fields of the group's first row (the source computes no
aggregates), then apply HAVING through the predicate evaluator. -/
def groupByFn (evalW : Row → List Char → EDB Bool) (data : List Row)
    (groupByClause : List Char) (havingClause : Option (List Char)) :
    EDB (List Row) := do
  let groupColumns := (splitOnL [','] groupByClause).map trimL
  let groups := data.foldl (fun gs row =>
    let groupKey := joinVals (groupColumns.map (fun col => objGet row (groupColName col)))
    match gs.find? (fun g => g.1 = groupKey) with
    | some _ =>
      gs.map (fun g =>
        if g.1 = groupKey then (g.1, { g.2 with rows := g.2.rows ++ [row] }) else g)
    | none =>
      gs ++ [(groupKey,
        { rows := [row],
          keys := groupColumns.foldl (fun acc col =>
            objSet acc (String.mk col) (objGet row (groupColName col))) [] })])
    ([] : List (List Char × Group))
  let result := (jsObjectValuesL groups).map (fun g =>
    (g.rows.headD []).foldl (fun acc p =>
      if groupColumns.contains p.1.data then acc else objSet acc p.1 p.2) g.keys)
  match havingClause with
  | none => pure result
  | some h => filterE (fun row => evalW row h) result

/-! ## JOIN statements -/

/-- `selectWithJoin(query)`, with the predicate evaluator (which the source
calls without a table name here) passed explicitly. -/
def selectWithJoin (evalW : Row → List Char → EDB Bool) (q : List Char) :
    EDB (List Row) := do
  match reSearch fromJoinRe q with
  | none => throwE "Invalid JOIN syntax"
  | some m =>
    let table1Name := String.mk ((m.grp 1).getD [])
    let joinType := String.mk (upperL ((m.grp 2).getD []))
    let table2Name := String.mk ((m.grp 3).getD [])
    let onClause := m.grp 4
    if onClause = none && !(includesL "CROSS".data joinType.data) then
      throwE "ON clause is required for this JOIN type" else do
    match reSearch selectColsRe q with
    | none => throwE "Invalid SELECT syntax"
    | some mc =>
      let columns := trimL ((mc.grp 1).getD [])
      let s1 ← getSchema table1Name
      if s1 = none then throwE ("Table " ++ table1Name ++ " does not exist") else do
      let s2 ← getSchema table2Name
      if s2 = none then throwE ("Table " ++ table2Name ++ " does not exist") else do
      let data1 ← getTableData table1Name
      let data2 ← getTableData table2Name
      let joined0 ← liftExc (performJoin data1 data2 table1Name table2Name onClause joinType)
      let joined1 ← match m.grp 5 with
        | none => pure joined0
        | some w => filterE (fun row => evalW row w) joined0
      let joined2 := match m.grp 6 with
        | none => joined1
        | some ob => orderBy joined1 ob
      let joined3 := match m.grp 7 with
        | none => joined2
        | some lc => applyLimit joined2 lc
      if columns ≠ "*".data then
        let selectedColumns := (splitOnL [','] columns).map (fun c => String.mk (trimL c))
        pure (joined3.map (fun row => selectedColumns.foldl (fun sel col =>
          objSet sel col (objGet row col)) []))
      else pure joined3

/-! ## The IN-protection scan of `evaluateWhere` -/

/-- Balanced-parenthesis scan: consume until the depth (starting as given)
returns to zero, keeping the closing parenthesis; an unbalanced rest is
consumed whole, as in the source's `while (j < length && depth > 0)`. -/
def parenScan : Nat → List Char → (List Char × List Char)
  | _, [] => ([], [])
  | depth, c :: cs =>
    let d2 := if c = '(' then depth + 1 else if c = ')' then depth - 1 else depth
    if d2 = 0 then ([c], cs)
    else
      let r := parenScan d2 cs
      (c :: r.1, r.2)

/-- The scan protecting `IN (...)` conditions: wherever the anchored
`IN`-opening regex matches, the whole parenthesized condition is stashed and
replaced by a `__PROTECTED_i__` placeholder. -/
def protectScanGo : Nat → Nat → List (List Char) → List Char → List Char →
    (List (List Char) × List Char)
  | 0, _, accProt, accProc, s => (accProt, accProc.reverse ++ s)
  | fuel + 1, idx, accProt, accProc, s =>
    match s with
    | [] => (accProt, accProc.reverse)
    | c :: cs =>
      match matchHere inProtectRe (c :: cs) with
      | some (rest, _) =>
        let consumed := (c :: cs).take ((c :: cs).length - rest.length)
        let pr := parenScan 1 rest
        let placeholder := ("__PROTECTED_" ++ intToStr (idx : Int) ++ "__").data
        protectScanGo fuel (idx + 1) (accProt ++ [consumed ++ pr.1])
          (placeholder.reverse ++ accProc) pr.2
      | none => protectScanGo fuel idx accProt (c :: accProc) cs

/-- Protect every `IN (...)`/`NOT IN (...)` condition of a WHERE clause. -/
def protectScan (whereClause : List Char) : List (List Char) × List Char :=
  protectScanGo (whereClause.length + 1) 0 [] [] whereClause

/-- Undo the protection inside one split-off condition. -/
def restoreProtected (cond : List Char) (prot : List (List Char)) : List Char :=
  prot.enum.foldl (fun c p =>
    replaceFirstL ("__PROTECTED_" ++ intToStr (p.1 : Int) ++ "__").data p.2 c) cond

/-! ## The recursive core

`execute`, `select` and the predicate evaluator are mutually recursive
through subqueries; the recursion is bounded by a fuel argument (the source
recursion is bounded by the strictly shrinking statement texts), and running
out of fuel is an error like any other. -/

mutual

/-- `execute(query)`: trim, reject empty, dispatch on the leading keyword,
and wrap any error with the uniform prefix. -/
def execute : Nat → List Char → EDB QueryResult
  | 0, _ => throwE "recursion limit"
  | fuel + 1, q0 =>
    tryE (do
      let q := trimL q0
      if q = [] then throwE "Query cannot be empty"
      else if startsWithCI q "CREATE TABLE" then createTable q
      else if startsWithCI q "INSERT INTO" then insert q
      else if startsWithCI q "SELECT" then do
        let rs ← select fuel q
        pure (QueryResult.rows rs)
      else if startsWithCI q "UPDATE" then update fuel q
      else if startsWithCI q "DELETE" then deleteStmt fuel q
      else throwE "Unknown SQL command. Supported commands: CREATE TABLE, INSERT, SELECT, UPDATE, DELETE")
      (fun e => throwE ("Query execution failed: " ++ e))
termination_by structural fuel => fuel

/-- `select(query)`: route UNION, then JOIN, then derived tables, then the
plain pipeline. -/
def select : Nat → List Char → EDB (List Row)
  | 0, _ => throwE "recursion limit"
  | fuel + 1, q =>
    if reTest unionSepRe q then selectWithUnion fuel q
    else if reTest joinSepRe q then
      selectWithJoin (fun row w => evaluateWhere fuel row w none) q
    else
      match reSearch derivedTableRe q with
      | some m =>
        let name := String.mk ((m.grp 2).getD [])
        selectDerived fuel ((m.grp 1).getD []) name
          (m.before ++ "FROM ".data ++ name.data ++ m.after)
      | none => selectBasic fuel q
termination_by structural fuel => fuel

/-- The plain SELECT pipeline: parse, check the table, then WHERE, GROUP
BY/HAVING, ORDER BY, LIMIT, DISTINCT, projection — in that order. -/
def selectBasic : Nat → List Char → EDB (List Row)
  | 0, _ => throwE "recursion limit"
  | fuel + 1, q =>
    match reSearch selectRe q with
    | none => throwE "Invalid SELECT syntax"
    | some m => do
      let columns := (m.grp 2).getD []
      let tableName := String.mk ((m.grp 3).getD [])
      let sc ← getSchema tableName
      if sc = none then throwE ("Table " ++ tableName ++ " does not exist") else do
      let data0 ← getTableData tableName
      let data1 ← match m.grp 4 with
        | none => pure data0
        | some w => filterE (fun row => evaluateWhere fuel row w (some tableName)) data0
      let data2 ← match m.grp 5 with
        | none => pure data1
        | some g =>
          groupByFn (fun row h => evaluateWhere fuel row h (some tableName))
            data1 g (m.grp 6)
      let data3 := match m.grp 7 with
        | none => data2
        | some ob => orderBy data2 ob
      let data4 := match m.grp 8 with
        | none => data3
        | some lc => applyLimit data3 lc
      let data5 := match m.grp 1 with
        | none => data4
        | some _ => applyDistinct data4 columns
      if trimL columns ≠ "*".data then
        let selectedColumns := (splitOnL [','] columns).map trimL
        pure (data5.map (fun row => selectedColumns.foldl (fun sel col =>
          objSet sel (String.mk col) (evaluateExpression col row)) []))
      else pure data5
termination_by structural fuel => fuel

/-- `selectWithUnion(query)`: split at every `UNION`/`UNION ALL` separator
(the split is a plain regex split, blind to parentheses), run each piece,
concatenate, and deduplicate unless `UNION ALL`. -/
def selectWithUnion : Nat → List Char → EDB (List Row)
  | 0, _ => throwE "recursion limit"
  | fuel + 1, q => do
    let isUnionAll := reTest unionAllSepRe q
    let selectQueries :=
      reSplit (q.length + 1) (if isUnionAll then unionAllSepRe else unionSepRe) [] q
    if selectQueries.length < 2 then throwE "Invalid UNION syntax" else do
    let results ← selectQueries.foldlM (fun acc sq => do
      let rs ← select fuel (trimL sq)
      pure (acc ++ rs)) ([] : List Row)
    if !isUnionAll then pure (applyDistinct results "*".data)
    else pure results
termination_by structural fuel => fuel

/-- The derived-table branch of `select`: run the subquery, stash any
existing rows and schema under the alias, register the derived result,
run the rewritten outer query, then clear and restore — the restore code
runs only on the success path, the `catch` merely rewraps the error. -/
def selectDerived : Nat → List Char → String → List Char → EDB (List Row)
  | 0, _, _, _ => throwE "recursion limit"
  | fuel + 1, subquery, name, modifiedQuery =>
    tryE (do
      let subqueryResult ← select fuel subquery
      let originalTableData ← getTableData name
      saveTableData name subqueryResult
      let originalSchema ← getSchema name
      (match originalSchema with
       | some _ => pure ()
       | none =>
         setSchema name
           { columns := (objKeys (subqueryResult.headD [])).foldl
               (fun acc k => assocSet acc k "TEXT") [],
             primaryKey := none })
      let result ← select fuel modifiedQuery
      removeTableData name
      (match originalSchema with
       | none => delSchema name
       | some s => do
         setSchema name s
         saveTableData name originalTableData)
      pure result)
      (fun e => throwE ("Derived table error: " ++ e))
termination_by structural fuel => fuel

/-- `update(query)`. -/
def update : Nat → List Char → EDB QueryResult
  | 0, _ => throwE "recursion limit"
  | fuel + 1, q =>
    match reSearch updateRe q with
    | none => throwE "Invalid UPDATE syntax"
    | some m =>
      let tableName := String.mk ((m.grp 1).getD [])
      updateBody (fun row w => evaluateWhere fuel row w (some tableName)) tableName
        ((m.grp 2).getD []) (m.grp 3)
termination_by structural fuel => fuel

/-- `delete(query)`. -/
def deleteStmt : Nat → List Char → EDB QueryResult
  | 0, _ => throwE "recursion limit"
  | fuel + 1, q =>
    match reSearch deleteRe q with
    | none => throwE "Invalid DELETE syntax"
    | some m =>
      let tableName := String.mk ((m.grp 1).getD [])
      deleteBody (fun row w => evaluateWhere fuel row w (some tableName)) tableName
        (m.grp 2)
termination_by structural fuel => fuel

/-- `evaluateWhere(row, whereClause, tableName)`: the EXISTS branch, else
protect the `IN` conditions, split on `AND`/`OR`, and fold the conditions
left to right with no precedence. -/
def evaluateWhere : Nat → Row → List Char → Option String → EDB Bool
  | 0, _, _, _ => throwE "recursion limit"
  | fuel + 1, row, whereClause, tableName =>
    match reSearch existsRe whereClause with
    | some m => evaluateExistsCondition fuel row whereClause m tableName
    | none => do
      let ps := protectScan whereClause
      let conditions := reSplit (ps.2.length + 1) andOrRe [1] ps.2
      let st ← conditions.foldlM (fun st cond => do
        if upperL cond = "AND".data then pure (st.1, "AND".data)
        else if upperL cond = "OR".data then pure (st.1, "OR".data)
        else if reTest existsWordRe cond then pure st
        else do
          let actual := restoreProtected (trimL cond) ps.1
          let b ← evaluateCondition fuel row actual tableName
          pure (if st.2 = "AND".data then (st.1 && b, st.2) else (st.1 || b, st.2)))
        (true, "AND".data)
      pure st.1
termination_by structural fuel => fuel

/-- `evaluateExistsCondition`: correlate and run the subquery, combine with
the rest of the WHERE clause. -/
def evaluateExistsCondition : Nat → Row → List Char → MatchRes → Option String → EDB Bool
  | 0, _, _, _, _ => throwE "recursion limit"
  | fuel + 1, row, whereClause, m, tableName =>
    let isNotExists := match m.grp 1 with
      | some nk => decide (upperL (trimL nk) = "NOT".data)
      | none => false
    let subqueryWithValues := correlateSubquery ((m.grp 2).getD []) row tableName
    tryE (do
      let r ← execute fuel subqueryWithValues
      let ex := match r with
        | QueryResult.rows rs => decide (0 < rs.length)
        | QueryResult.msg _ _ => false
      let conditionResult := if isNotExists then !ex else ex
      let remainingWhere := trimL (replaceFirstL m.matched [] whereClause)
      if remainingWhere ≠ [] then do
        let remainingResult ← evaluateWhere fuel row remainingWhere tableName
        pure (conditionResult && remainingResult)
      else pure conditionResult)
      (fun e => throwE ("Subquery error: " ++ e))
termination_by structural fuel => fuel

/-- `evaluateCondition(row, condition, tableName)`: LIKE, NOT IN, IN,
BETWEEN, IS [NOT] NULL, then the comparison-operator scan — in the source's
branch order, including the switch whose `!=` label carries a stray trailing
space. -/
def evaluateCondition : Nat → Row → List Char → Option String → EDB Bool
  | 0, _, _, _ => throwE "recursion limit"
  | fuel + 1, row, condition0, _tableName =>
    let condition := trimL condition0
    match reSearch likeRe condition with
    | some m =>
      let col := String.mk ((m.grp 1).getD [])
      let pattern := valueToString (parseValue ((m.grp 2).getD []))
      let v := objGet row col
      pure (likeTest pattern.data (if jsTruthy v then (valueToString v).data else []))
    | none =>
    match reSearch notInRe condition with
    | some m =>
      let col := String.mk ((m.grp 1).getD [])
      let innerContent := trimL ((m.grp 2).getD [])
      if startsWithCI innerContent "SELECT" then
        tryE (do
          let r ← execute fuel innerContent
          let values := match r with
            | QueryResult.rows rs => rs.map (fun rr => (objValues rr).headD Value.vundef)
            | QueryResult.msg _ _ => []
          pure (!(values.any (fun v => sameValue v (objGet row col)))))
          (fun e => throwE ("Subquery error in NOT IN: " ++ e))
      else
        let values := (splitOnL [','] innerContent).map (fun v => parseValue (trimL v))
        pure (!(values.any (fun v => sameValue v (objGet row col))))
    | none =>
    match reSearch inRe condition with
    | some m =>
      let col := String.mk ((m.grp 1).getD [])
      let innerContent := trimL ((m.grp 2).getD [])
      if startsWithCI innerContent "SELECT" then
        tryE (do
          let r ← execute fuel innerContent
          let values := match r with
            | QueryResult.rows rs => rs.map (fun rr => (objValues rr).headD Value.vundef)
            | QueryResult.msg _ _ => []
          pure (values.any (fun v => sameValue v (objGet row col))))
          (fun e => throwE ("Subquery error in IN: " ++ e))
      else
        let values := (splitOnL [','] innerContent).map (fun v => parseValue (trimL v))
        pure (values.any (fun v => sameValue v (objGet row col)))
    | none =>
    match reSearch betweenRe condition with
    | some m =>
      let col := String.mk ((m.grp 1).getD [])
      let minV := parseValue ((m.grp 2).getD [])
      let maxV := parseValue ((m.grp 3).getD [])
      pure (jsGe (objGet row col) minV && jsLe (objGet row col) maxV)
    | none =>
    match reSearch isNullRe condition with
    | some m =>
      let col := String.mk ((m.grp 1).getD [])
      let isNotNull := match m.grp 2 with
        | some nk => decide (upperL (trimL nk) = "NOT".data)
        | none => false
      let isNull := objGet row col = Value.vnull || objGet row col = Value.vundef
      pure (if isNotNull then !isNull else isNull)
    | none =>
    match [">=", "<=", "!=", "<>", "=", ">", "<"].find?
        (fun op => includesL op.data condition) with
    | none => pure false
    | some op =>
      let pieces := (splitOnL op.data condition).map trimL
      let col0 := pieces.getD 0 []
      let val0 := pieces.getD 1 []
      let col := String.mk (if includesL ['.'] col0 then (splitOnL ['.'] col0).getD 1 [] else col0)
      let rowValue := objGet row col
      let finish : Value → EDB Bool := fun valv =>
        if op = "=" then pure (jsEq rowValue valv)
        else if op = "!= " || op = "<>" then pure (!(jsEq rowValue valv))
        else if op = ">" then pure (jsGt rowValue valv)
        else if op = "<" then pure (jsLt rowValue valv)
        else if op = ">=" then pure (jsGe rowValue valv)
        else if op = "<=" then pure (jsLe rowValue valv)
        else pure false
      if startsWithCI val0 "SELECT" then do
        let r ← tryE (execute fuel val0) (fun e => throwE ("Subquery error: " ++ e))
        match r with
        | QueryResult.rows (first :: _) => finish ((objValues first).headD Value.vundef)
        | QueryResult.rows [] => pure false
        | QueryResult.msg _ _ => pure false
      else finish (parseValue val0)
termination_by structural fuel => fuel

end

/-! ## Unfolding lemmas for the statement monad -/

theorem edbBindApply {α β : Type} (x : EDB α) (f : α → EDB β) (db : DB) :
    (x >>= f) db =
      match x db with
      | (Except.ok a, db2) => f a db2
      | (Except.error e, db2) => (Except.error e, db2) := rfl

theorem edbPureApply {α : Type} (a : α) (db : DB) :
    (pure a : EDB α) db = (Except.ok a, db) := rfl

theorem edbTryEOk {α : Type} (x : EDB α) (h : String → EDB α) (db : DB)
    {a : α} {db2 : DB} (hx : x db = (Except.ok a, db2)) :
    tryE x h db = (Except.ok a, db2) := by
  simp [tryE, hx]

theorem edbTryEErr {α : Type} (x : EDB α) (h : String → EDB α) (db : DB)
    {e : String} {db2 : DB} (hx : x db = (Except.error e, db2)) :
    tryE x h db = h e db2 := by
  simp [tryE, hx]

/-! ## Verification of the specification claims -/

section Claims

/-- A schema with the given columns and no primary key, for the concrete
databases below. -/
def schemaOf (cols : List (String × String)) : TableSchema :=
  { columns := cols, primaryKey := none }

/-- The database for the UNION-in-subquery scenario: tables `t`, `u`, `v`
with one row each. -/
def dbUnionC1 : DB :=
  { tables := [("t", schemaOf [("b", "INTEGER")]), ("u", schemaOf [("c", "INTEGER")]),
               ("v", schemaOf [("d", "INTEGER")])],
    store := [("t", [[("b", Value.num 1)]]), ("u", [[("c", Value.num 1)]]),
              ("v", [[("d", Value.num 2)]])],
    writes := [] }

/-- C1: the claim says a `UNION` inside a parenthesized subquery never splits
the outer statement.  The code splits blind to parenthesis depth: on a SELECT
whose `IN (...)` subquery contains `UNION`, the split produces two fragments,
the first cut inside the parentheses (its parentheses are unbalanced), and
executing the whole statement fails with a syntax error instead of
evaluating the subquery union. -/
theorem c1_union_split_ignores_parens :
    reSplit ("SELECT b FROM t WHERE b IN (SELECT c FROM u UNION SELECT d FROM v)".data.length + 1)
        unionSepRe [] "SELECT b FROM t WHERE b IN (SELECT c FROM u UNION SELECT d FROM v)".data =
      ["SELECT b FROM t WHERE b IN (SELECT c FROM u".data, "SELECT d FROM v)".data]
    ∧ countChar '(' "SELECT b FROM t WHERE b IN (SELECT c FROM u".data = 1
    ∧ countChar ')' "SELECT b FROM t WHERE b IN (SELECT c FROM u".data = 0
    ∧ select 9 "SELECT b FROM t WHERE b IN (SELECT c FROM u UNION SELECT d FROM v)".data dbUnionC1 =
        (Except.error "Invalid SELECT syntax", dbUnionC1) := by
  refine ⟨by decide, by decide, by decide, by decide⟩

/-- The `orders` database of the GROUP BY scenario: rows `(1,1,100)`,
`(2,1,200)`, `(3,2,150)`. -/
def dbOrdersC2 : DB :=
  { tables := [("orders", schemaOf [("id", "INTEGER"), ("user_id", "INTEGER"), ("amount", "INTEGER")])],
    store := [("orders",
      [[("id", Value.num 1), ("user_id", Value.num 1), ("amount", Value.num 100)],
       [("id", Value.num 2), ("user_id", Value.num 1), ("amount", Value.num 200)],
       [("id", Value.num 3), ("user_id", Value.num 2), ("amount", Value.num 150)]])],
    writes := [] }

/-- C2: the claim says each group carries its aggregates, and that the
concrete HAVING query returns one group with count 2.  The grouping code
computes no aggregate at all (it copies the first row's fields), so `HAVING
COUNT(*) > 1` compares `undefined` with 1 and filters every group out (empty
result), and without HAVING the projected `COUNT(*)` falls back to the
constant 1 for every group. -/
theorem c2_group_by_computes_no_aggregates :
    select 9 "SELECT user_id, COUNT(*) FROM orders GROUP BY user_id HAVING COUNT(*) > 1".data
        dbOrdersC2 =
      (Except.ok [], dbOrdersC2)
    ∧ (select 9 "SELECT user_id, COUNT(*) FROM orders GROUP BY user_id".data dbOrdersC2).1 =
      Except.ok
        [[("user_id", Value.num 1), ("COUNT(*)", Value.num 1)],
         [("user_id", Value.num 2), ("COUNT(*)", Value.num 1)]] := by
  refine ⟨by decide, by decide⟩

/-- A one-table database for the comparison-operator scenarios. -/
def dbCondC5 : DB :=
  { tables := [("t", schemaOf [("age", "INTEGER")])],
    store := [("t", [[("age", Value.num 25)]])], writes := [] }

/-- C5: the claim says `col != literal` evaluates as inequality, like `<>`.
The operator switch of the source compares the scanned operator against the
label `"!= "` (with a stray trailing space), which the scanned `"!="` never
equals, so every `!=` comparison falls through to the default and returns
false: on the row `age = 25`, `age != 30` is false while `age <> 30` is
true, and a WHERE clause `age != 30` filters the row out. -/
theorem c5_neq_operator_always_false :
    (evaluateCondition 9 [("age", Value.num 25)] "age != 30".data none dbCondC5).1 =
      Except.ok false
    ∧ (evaluateCondition 9 [("age", Value.num 25)] "age <> 30".data none dbCondC5).1 =
      Except.ok true
    ∧ (select 9 "SELECT * FROM t WHERE age != 30".data dbCondC5).1 = Except.ok []
    ∧ (select 9 "SELECT * FROM t WHERE age <> 30".data dbCondC5).1 =
      Except.ok [[("age", Value.num 25)]] := by
  refine ⟨by decide, by decide, by decide, by decide⟩

/-- C10: for any statement text that trims to nothing, `execute` throws the
wrapped emptiness error and leaves the state (schema, store, write log)
untouched. -/
theorem c10_empty_query_rejected (fuel : Nat) (q : List Char) (db : DB)
    (h : trimL q = []) :
    execute (fuel + 1) q db =
      (Except.error "Query execution failed: Query cannot be empty", db) := by
  show tryE _ _ db = _
  rw [edbTryEErr]
  · rfl
  · simp [h, edbBindApply, throwE]

/-- C10 witness: three spaces of input, on a nonempty database. -/
theorem c10_empty_query_rejected_witness :
    execute 1 "   ".data dbCondC5 =
      (Except.error "Query execution failed: Query cannot be empty", dbCondC5) :=
  c10_empty_query_rejected 0 "   ".data dbCondC5 (by decide)

/-- Setting a key makes it readable. -/
theorem assocGetSetSelf {α : Type} :
    ∀ (l : List (String × α)) (k : String) (v : α),
      assocGet (assocSet l k v) k = some v := by
  intro l k v
  induction l with
  | nil => simp [assocSet, assocGet]
  | cons p rest ih =>
    by_cases h : p.1 = k
    · simp [assocSet, h, assocGet]
    · simpa [assocSet, h, assocGet, List.find?] using ih

/-- A database for the LIKE-on-null scenario. -/
def dbLikeC9 : DB :=
  { tables := [("t", schemaOf [("name", "TEXT")])],
    store := [("t", [[("name", Value.vnull)]])], writes := [] }

/-- C9: whenever a condition is dispatched to the LIKE branch and the row's
value for the matched column is `null` or absent, the pattern is tested
against the empty string (`String(row[col] || '')`), so `LIKE '%'` holds on a
null field and a pattern that cannot match the empty string does not. -/
theorem c9_like_on_null_tests_empty (fuel : Nat) (row : Row) (cond : List Char)
    (tbl : Option String) (db : DB) (m : MatchRes)
    (hm : reSearch likeRe (trimL cond) = some m)
    (hnull : objGet row (String.mk ((m.grp 1).getD [])) = Value.vnull ∨
             objGet row (String.mk ((m.grp 1).getD [])) = Value.vundef) :
    evaluateCondition (fuel + 1) row cond tbl db =
      (Except.ok (likeTest (valueToString (parseValue ((m.grp 2).getD []))).data []), db)
    ∧ likeTest "%".data [] = true
    ∧ likeTest "a%".data [] = false
    ∧ (evaluateCondition 9 [("name", Value.vnull)] "name LIKE '%'".data none dbLikeC9).1 =
        Except.ok true
    ∧ (evaluateCondition 9 [("name", Value.vnull)] "name LIKE 'a%'".data none dbLikeC9).1 =
        Except.ok false := by
  refine ⟨?_, by decide, by decide, by decide, by decide⟩
  simp only [evaluateCondition, hm]
  rcases hnull with h | h <;> simp [h, jsTruthy, edbPureApply]

/-- C9 witness: the LIKE branch fires on `name LIKE '%'` against a row whose
`name` is null, and the test against the empty string succeeds. -/
theorem c9_like_on_null_tests_empty_witness :
    evaluateCondition 1 [("name", Value.vnull)] "name LIKE '%'".data none dbLikeC9 =
      (Except.ok true, dbLikeC9) := by
  have h := c9_like_on_null_tests_empty 0 [("name", Value.vnull)] "name LIKE '%'".data
    none dbLikeC9
    { before := [], matched := "name LIKE '%'".data, after := [],
      caps := [(2, "'%'".data), (1, "name".data)] }
    (by decide) (Or.inl (by decide))
  rw [h.1]
  decide

/-- The database for the INSERT arity scenario: table `t(a, b)`, no rows. -/
def dbInsC4 : DB :=
  { tables := [("t", schemaOf [("a", "INTEGER"), ("b", "TEXT")])],
    store := [("t", [])], writes := [] }

/-- C4 counterexample: the claim says an INSERT whose column list and value
list differ in length fails and changes nothing.  On `INSERT INTO t (a, b)
VALUES (1)` the code reports success and appends/persists a row (the
uncovered column is `undefined` in memory and dropped by JSON
persistence). -/
theorem c4_arity_mismatch_still_inserts :
    execute 9 "INSERT INTO t (a, b) VALUES (1)".data dbInsC4 =
      (Except.ok (QueryResult.msg true "1 row inserted into t"),
       { tables := dbInsC4.tables,
         store := [("t", [[("a", Value.num 1)]])],
         writes := [("t", [[("a", Value.num 1)]])] }) := by
  decide

/-- C4 (amended): an INSERT into an existing table never checks arity: it
builds the row positionally (`row[col] = values[index]`, missing positions
`undefined`, extra values ignored), appends it, persists the new sequence
exactly once, and reports success. -/
theorem c4_insert_is_positional (tableName : String) (colsStr valsStr : List Char)
    (db : DB) (s : TableSchema)
    (htbl : assocGet db.tables tableName = some s)
    (_hmismatch : ((splitOnL [','] colsStr).map (fun c => String.mk (trimL c))).length ≠
      (parseValues valsStr).length) :
    insertBody tableName colsStr valsStr db =
      (Except.ok (QueryResult.msg true ("1 row inserted into " ++ tableName)),
       { tables := db.tables,
         store := assocSet db.store tableName
           ((storeRows db tableName ++
             [buildInsertRow ((splitOnL [','] colsStr).map (fun c => String.mk (trimL c)))
               (parseValues valsStr)]).map rowStripUndef),
         writes := db.writes ++
           [(tableName, (storeRows db tableName ++
             [buildInsertRow ((splitOnL [','] colsStr).map (fun c => String.mk (trimL c)))
               (parseValues valsStr)]).map rowStripUndef)] }) := by
  simp [insertBody, edbBindApply, getSchema, htbl, getTableData, saveTableData,
    edbPureApply]

/-- C4 witness: the amended behaviour at the concrete mismatched INSERT. -/
theorem c4_insert_is_positional_witness :
    insertBody "t" "a, b".data "1".data dbInsC4 =
      (Except.ok (QueryResult.msg true ("1 row inserted into " ++ "t")),
       { tables := dbInsC4.tables,
         store := assocSet dbInsC4.store "t"
           ((storeRows dbInsC4 "t" ++
             [buildInsertRow ((splitOnL [','] "a, b".data).map (fun c => String.mk (trimL c)))
               (parseValues "1".data)]).map rowStripUndef),
         writes := dbInsC4.writes ++
           [("t", (storeRows dbInsC4 "t" ++
             [buildInsertRow ((splitOnL [','] "a, b".data).map (fun c => String.mk (trimL c)))
               (parseValues "1".data)]).map rowStripUndef)] }) :=
  c4_insert_is_positional "t" "a, b".data "1".data dbInsC4
    (schemaOf [("a", "INTEGER"), ("b", "TEXT")]) (by decide) (by decide)

/-- The database for the derived-table scenarios: base table `t` and a
pre-existing table `d` that the derived alias will displace. -/
def dbDerivC3 : DB :=
  { tables := [("t", schemaOf [("a", "INTEGER")]), ("d", schemaOf [("z", "INTEGER")])],
    store := [("t", [[("a", Value.num 1)]]), ("d", [[("z", Value.num 9)]])],
    writes := [] }

/-- C3 counterexample: the claim says the pre-existing table is restored even
when the outer statement fails.  When the rewritten outer query fails
(`SELECT a FROM (SELECT a FROM t) AS d WHERE` with a dangling WHERE), the
error is rethrown without running the restore code, and the pre-existing
table `d` is left holding the derived rows instead of its own. -/
theorem c3_error_path_skips_restore :
    storeRows dbDerivC3 "d" = [[("z", Value.num 9)]]
    ∧ (select 9 "SELECT a FROM (SELECT a FROM t) AS d WHERE".data dbDerivC3).1 =
        Except.error "Derived table error: Invalid SELECT syntax"
    ∧ storeRows (select 9 "SELECT a FROM (SELECT a FROM t) AS d WHERE".data dbDerivC3).2 "d" =
        [[("a", Value.num 1)]] := by
  refine ⟨by decide, by decide, by decide⟩

/-- C3 (amended): when the derived-table statement completes successfully,
the snapshot taken just before the transient registration is written back:
the alias's schema entry and row sequence after the statement equal the
snapshot (rows exactly, since stored rows carry no `undefined` fields). -/
theorem c3_restore_on_success (fuel : Nat) (sub : List Char) (tname : String)
    (modq : List Char) (db db1 db2 : DB) (r1 rows : List Row) (s : TableSchema)
    (snap : List Row)
    (hsub : select fuel sub db = (Except.ok r1, db1))
    (hsch : assocGet db1.tables tname = some s)
    (hrows : storeRows db1 tname = snap)
    (hclean : snap.map rowStripUndef = snap)
    (hok : selectDerived (fuel + 1) sub tname modq db = (Except.ok rows, db2)) :
    assocGet db2.tables tname = some s ∧ storeRows db2 tname = snap := by
  simp only [selectDerived, tryE, edbBindApply, hsub, getTableData, saveTableData,
    getSchema, hsch, edbPureApply] at hok
  rcases h2 : select fuel modq
      { db1 with
        store := assocSet db1.store tname (r1.map rowStripUndef),
        writes := db1.writes ++ [(tname, r1.map rowStripUndef)] } with ⟨res2, dbB⟩
  rw [h2] at hok
  cases res2 with
  | error e => simp [throwE] at hok
  | ok r2 =>
    simp only [removeTableData, edbBindApply, edbPureApply, setSchema, saveTableData] at hok
    have hB := congrArg Prod.snd hok
    simp only at hB
    subst hB
    constructor
    · simpa [storeRows] using assocGetSetSelf _ tname s
    · have hr := hrows
      simp only [storeRows] at hr
      simp [storeRows, assocGetSetSelf, hr, hclean]

/-- C3 witness: a successful derived-table statement over `dbDerivC3`
restores the displaced table `d` exactly. -/
theorem c3_restore_on_success_witness :
    assocGet ((selectDerived 9 "SELECT a FROM t".data "d" "SELECT a FROM d".data
        dbDerivC3).2).tables "d" = some (schemaOf [("z", "INTEGER")])
    ∧ storeRows ((selectDerived 9 "SELECT a FROM t".data "d" "SELECT a FROM d".data
        dbDerivC3).2) "d" = [[("z", Value.num 9)]] :=
  c3_restore_on_success 8 "SELECT a FROM t".data "d" "SELECT a FROM d".data
    dbDerivC3 dbDerivC3
    ((selectDerived 9 "SELECT a FROM t".data "d" "SELECT a FROM d".data dbDerivC3).2)
    [[("a", Value.num 1)]] [[("a", Value.num 1)]]
    (schemaOf [("z", "INTEGER")]) [[("z", Value.num 9)]]
    (by decide) (by decide) (by decide) (by decide) (by decide)

/-! Fold lemmas for the mutation bodies. -/

/-- A monadic fold whose steps succeed without touching the state computes
the pure fold. -/
theorem foldlMPure {σ α : Type} (f : σ → α → EDB σ) (g : σ → α → σ)
    (h : ∀ st a db0, f st a db0 = (Except.ok (g st a), db0)) :
    ∀ (l : List α) (st : σ) (db : DB),
      List.foldlM f st l db = (Except.ok (l.foldl g st), db) := by
  intro l
  induction l with
  | nil => intro st db; rfl
  | cons a t ih =>
    intro st db
    simp only [List.foldlM_cons, edbBindApply, h, List.foldl_cons]
    exact ih (g st a) db

/-- A monadic fold hitting a failing element (after state-preserving
successes) fails with the state unchanged. -/
theorem foldlMFirstErr {σ α : Type} (f : σ → α → EDB σ) (g : σ → α → σ)
    (pre post : List α) (r0 : α) (e : String)
    (hok : ∀ st a db0, a ∈ pre → f st a db0 = (Except.ok (g st a), db0))
    (herr : ∀ st db0, f st r0 db0 = (Except.error e, db0)) :
    ∀ (st : σ) (db : DB),
      List.foldlM f st (pre ++ r0 :: post) db = (Except.error e, db) := by
  induction pre with
  | nil =>
    intro st db
    simp only [List.nil_append, List.foldlM_cons, edbBindApply, herr]
  | cons a t ih =>
    intro st db
    simp only [List.cons_append, List.foldlM_cons, edbBindApply,
      hok st a db (List.mem_cons_self a t)]
    exact ih (fun st2 a2 db2 h2 => hok st2 a2 db2 (List.mem_cons_of_mem a h2)) (g st a) db

/-- The row/count accumulator of UPDATE computes a map and a count. -/
theorem foldlPairSnoc {β : Type} (p : β → Bool) (u : β → β) :
    ∀ (l : List β) (acc : List β) (c : Nat),
      l.foldl (fun st row =>
        if p row then (st.1 ++ [u row], st.2 + 1) else (st.1 ++ [row], st.2)) (acc, c) =
      (acc ++ l.map (fun row => if p row then u row else row), c + l.countP p) := by
  intro l
  induction l with
  | nil => intro acc c; simp
  | cons a t ih =>
    intro acc c
    by_cases hp : p a
    · simp [List.foldl_cons, hp, ih, List.countP_cons, List.append_assoc]
      omega
    · simp [List.foldl_cons, hp, ih, List.countP_cons, List.append_assoc]

/-- A monadic filter with a state-preserving total predicate is `List.filter`. -/
theorem filterEPure {α : Type} (pf : α → EDB Bool) (pb : α → Bool)
    (h : ∀ a db0, pf a db0 = (Except.ok (pb a), db0)) :
    ∀ (l : List α) (db : DB), filterE pf l db = (Except.ok (l.filter pb), db) := by
  intro l
  induction l with
  | nil => intro db; rfl
  | cons a t ih =>
    intro db
    simp only [filterE, edbBindApply, h, edbPureApply, List.filter_cons]
    simp only [ih]

/-- A monadic filter hitting a failing element fails, state unchanged. -/
theorem filterEFirstErr {α : Type} (pf : α → EDB Bool) (pb : α → Bool)
    (post : List α) (r0 : α) (e : String)
    (herr : ∀ db0, pf r0 db0 = (Except.error e, db0)) :
    ∀ (pre : List α), (∀ a db0, a ∈ pre → pf a db0 = (Except.ok (pb a), db0)) →
      ∀ (db : DB), filterE pf (pre ++ r0 :: post) db = (Except.error e, db)
  | [], _, db => by simp only [List.nil_append, filterE, edbBindApply, herr]
  | a :: t, hok, db => by
    simp only [List.cons_append, filterE, edbBindApply,
      hok a db (List.mem_cons_self a t)]
    have hrec : filterE pf (t.append (r0 :: post)) db = (Except.error e, db) :=
      filterEFirstErr pf pb post r0 e herr t
        (fun a2 db2 h2 => hok a2 db2 (List.mem_cons_of_mem a h2)) db
    rw [hrec]

/-- C6: with the predicate evaluator abstracted (the source passes
`this.evaluateWhere` closed over the table name), an UPDATE or DELETE whose
predicate evaluation succeeds on every row persists the fully mapped
(resp. filtered) row sequence through the store exactly once — the write log
grows by exactly that one entry — after all rows were evaluated; and if the
evaluator fails on some row, the whole statement aborts with the state (store
and write log alike) exactly as before: nothing is persisted. -/
theorem c6_mutations_persist_once (f : Row → List Char → Bool)
    (evalW evalE : Row → List Char → EDB Bool)
    (tbl : String) (sc w : List Char) (db : DB) (s : TableSchema)
    (pre post : List Row) (r0 : Row) (e : String)
    (htbl : assocGet db.tables tbl = some s)
    (hpure : ∀ r c db0, evalW r c db0 = (Except.ok (f r c), db0))
    (hpre : ∀ r c db0, r ∈ pre → evalE r c db0 = (Except.ok (f r c), db0))
    (herr : ∀ c db0, evalE r0 c db0 = (Except.error e, db0)) :
    (updateBody evalW tbl sc (some w) db =
       (Except.ok (QueryResult.msg true
          (intToStr (((storeRows db tbl).countP (fun r => f r w)) : Int) ++
            " rows updated in " ++ tbl)),
        { tables := db.tables,
          store := assocSet db.store tbl
            (((storeRows db tbl).map
              (fun r => if f r w then objAssign r (parseSetClause sc) else r)).map rowStripUndef),
          writes := db.writes ++ [(tbl,
            ((storeRows db tbl).map
              (fun r => if f r w then objAssign r (parseSetClause sc) else r)).map rowStripUndef)] }))
    ∧ (deleteBody evalW tbl (some w) db =
       (Except.ok (QueryResult.msg true
          (intToStr (((storeRows db tbl).length -
              ((storeRows db tbl).filter (fun r => !(f r w))).length : Nat) : Int) ++
            " rows deleted from " ++ tbl)),
        { tables := db.tables,
          store := assocSet db.store tbl
            (((storeRows db tbl).filter (fun r => !(f r w))).map rowStripUndef),
          writes := db.writes ++ [(tbl,
            ((storeRows db tbl).filter (fun r => !(f r w))).map rowStripUndef)] }))
    ∧ (storeRows db tbl = pre ++ r0 :: post →
        updateBody evalE tbl sc (some w) db = (Except.error e, db)
        ∧ deleteBody evalE tbl (some w) db = (Except.error e, db)) := by
  refine ⟨?_, ?_, ?_⟩
  · simp only [updateBody, edbBindApply, getSchema, htbl, edbPureApply, getTableData]
    rw [if_neg (by simp)]
    have hstep : ∀ (st : List Row × Nat) (row : Row) (db0 : DB),
        (do
          let y ← evalW row w
          if y = true then pure (st.1 ++ [objAssign row (parseSetClause sc)], st.2 + 1)
          else pure (st.1 ++ [row], st.2) : EDB (List Row × Nat)) db0 =
        (Except.ok (if f row w = true then (st.1 ++ [objAssign row (parseSetClause sc)], st.2 + 1)
          else (st.1 ++ [row], st.2)), db0) := by
      intro st row db0
      simp only [edbBindApply, hpure]
      by_cases hb : f row w <;> simp [hb, edbPureApply]
    simp only [edbBindApply, getTableData]
    rw [foldlMPure _ _ hstep]
    rw [foldlPairSnoc (fun r => f r w) (fun r => objAssign r (parseSetClause sc))]
    simp [saveTableData, edbBindApply, edbPureApply]
  · simp only [deleteBody, edbBindApply, getSchema, htbl, edbPureApply, getTableData]
    rw [if_neg (by simp)]
    have hstep : ∀ (a : Row) (db0 : DB),
        (do
          let b ← evalW a w
          pure (!b) : EDB Bool) db0 = (Except.ok (!(f a w)), db0) := by
      intro a db0
      simp [edbBindApply, hpure, edbPureApply]
    simp only [edbBindApply, getTableData]
    rw [filterEPure _ _ hstep]
    simp [saveTableData, edbBindApply, edbPureApply]
  · intro hrows
    constructor
    · have hstepPre : ∀ (st : List Row × Nat) (row : Row) (db0 : DB), row ∈ pre →
          (do
            let y ← evalE row w
            if y = true then pure (st.1 ++ [objAssign row (parseSetClause sc)], st.2 + 1)
            else pure (st.1 ++ [row], st.2) : EDB (List Row × Nat)) db0 =
          (Except.ok (if f row w = true then
              (st.1 ++ [objAssign row (parseSetClause sc)], st.2 + 1)
            else (st.1 ++ [row], st.2)), db0) := by
        intro st row db0 hm
        simp only [edbBindApply, hpre row w db0 hm]
        by_cases hb : f row w <;> simp [hb, edbPureApply]
      have hstepErr : ∀ (st : List Row × Nat) (db0 : DB),
          (do
            let y ← evalE r0 w
            if y = true then pure (st.1 ++ [objAssign r0 (parseSetClause sc)], st.2 + 1)
            else pure (st.1 ++ [r0], st.2) : EDB (List Row × Nat)) db0 =
          (Except.error e, db0) := by
        intro st db0
        simp only [edbBindApply, herr]
      simp only [updateBody, edbBindApply, getSchema, htbl, edbPureApply, getTableData]
      rw [if_neg (by simp)]
      simp only [edbBindApply, getTableData]
      rw [hrows]
      rw [foldlMFirstErr _
        (fun (st : List Row × Nat) row => if f row w = true then
            (st.1 ++ [objAssign row (parseSetClause sc)], st.2 + 1)
          else (st.1 ++ [row], st.2)) pre post r0 e
        (fun st a db0 hm => hstepPre st a db0 hm) hstepErr]
    · simp only [deleteBody, edbBindApply, getSchema, htbl, edbPureApply, getTableData]
      rw [if_neg (by simp)]
      simp only [edbBindApply, getTableData]
      rw [hrows]
      have h1 : ∀ db0, (do
          let b ← evalE r0 w
          pure (!b) : EDB Bool) db0 = (Except.error e, db0) := by
        intro db0
        simp only [edbBindApply, herr]
      have hrec := filterEFirstErr
        (fun row => do
          let b ← evalE row w
          pure (!b))
        (fun r => !(f r w)) post r0 e h1 pre
        (fun a db2 hm => by simp only [edbBindApply, hpre a w db2 hm, edbPureApply]) db
      rw [hrec]


/-- The database and evaluators of the C6 witness. -/
def dbMutC6 : DB :=
  { tables := [("t", schemaOf [("a", "INTEGER"), ("b", "INTEGER")])],
    store := [("t", [[("a", Value.num 1)], [("a", Value.num 2)], [("a", Value.num 3)]])],
    writes := [] }

/-- A concrete pure predicate for the C6 witness. -/
def predC6 (r : Row) (_c : List Char) : Bool := objGet r "a" = Value.num 1

/-- A total, state-preserving evaluator. -/
def evalWC6 (r : Row) (c : List Char) : EDB Bool := fun db0 =>
  (Except.ok (predC6 r c), db0)

/-- An evaluator that fails on the row `a = 2`. -/
def evalEC6 (r : Row) (c : List Char) : EDB Bool := fun db0 =>
  if objGet r "a" = Value.num 2 then (Except.error "boom", db0)
  else (Except.ok (predC6 r c), db0)

/-- C6 witness: on a concrete three-row table, the failing evaluator aborts
UPDATE and DELETE with the state untouched, and the total evaluator persists
exactly once. -/
theorem c6_mutations_persist_once_witness :
    updateBody evalEC6 "t" "b = 5".data (some "a = 1".data) dbMutC6 =
      (Except.error "boom", dbMutC6)
    ∧ deleteBody evalEC6 "t" (some "a = 1".data) dbMutC6 =
      (Except.error "boom", dbMutC6)
    ∧ (updateBody evalWC6 "t" "b = 5".data (some "a = 1".data) dbMutC6).2.writes.length = 1 := by
  have h := c6_mutations_persist_once predC6 evalWC6 evalEC6 "t" "b = 5".data
    "a = 1".data dbMutC6 (schemaOf [("a", "INTEGER"), ("b", "INTEGER")])
    [[("a", Value.num 1)]] [[("a", Value.num 3)]] [("a", Value.num 2)] "boom"
    (by decide) (fun r c db0 => rfl)
    (by
      intro r c db0 hm
      simp only [List.mem_singleton] at hm
      subst hm
      rfl)
    (fun c db0 => rfl)
  have habort := h.2.2 (by decide)
  refine ⟨habort.1, habort.2, ?_⟩
  rw [h.1]
  decide

/-- flatMap of singletons is a map. -/
theorem flatMapSingleton {α β : Type} (g : α → β) :
    ∀ l : List α, (l.flatMap fun x => [g x]) = l.map g
  | [] => rfl
  | x :: xs => by simp [List.flatMap_cons, flatMapSingleton g xs]

theorem c7_left_join_preserves_left (d1 d2 : List Row) (t1 t2 k1 k2 : String) :
    (∀ r1 ∈ d1, ∃ r2, mergeRows r1 r2 t1 t2 ∈ leftJoinRows d1 d2 t1 t2 k1 k2)
    ∧ (∀ r1 ∈ d1, (∀ r2 ∈ d2, jsEq (objGet r1 k1) (objGet r2 k2) = false) →
        mergeRows r1 (nullRowOf d2) t1 t2 ∈ leftJoinRows d1 d2 t1 t2 k1 k2
        ∧ objKeys (nullRowOf d2) = objKeys (d2.headD [])
        ∧ ∀ p ∈ nullRowOf d2, p.2 = Value.vnull)
    ∧ (d2 = [] →
        leftJoinRows d1 d2 t1 t2 k1 k2 = d1.map (fun r1 => mergeRows r1 [] t1 t2)
        ∧ (leftJoinRows d1 d2 t1 t2 k1 k2).length = d1.length
        ∧ ∀ r1 : Row, mergeRows r1 ([] : Row) t1 t2 =
            r1.foldl (fun acc p => objSet acc (t1 ++ "." ++ p.1) p.2) []) := by
  refine ⟨?_, ?_, ?_⟩
  · intro r1 h1
    by_cases hms : (d2.filter (fun r2 => jsEq (objGet r1 k1) (objGet r2 k2))).isEmpty
    · refine ⟨nullRowOf d2, List.mem_flatMap.mpr ⟨r1, h1, ?_⟩⟩
      simp [hms]
    · rcases hh : d2.filter (fun r2 => jsEq (objGet r1 k1) (objGet r2 k2)) with _ | ⟨y, ys⟩
      · rw [hh] at hms; simp at hms
      · refine ⟨y, List.mem_flatMap.mpr ⟨r1, h1, ?_⟩⟩
        simp [leftJoinRows, hh]
  · intro r1 h1 hnone
    have hfil : d2.filter (fun r2 => jsEq (objGet r1 k1) (objGet r2 k2)) = [] :=
      List.filter_eq_nil_iff.mpr (fun r2 h2 => by simp [hnone r2 h2])
    refine ⟨List.mem_flatMap.mpr ⟨r1, h1, ?_⟩, ?_, ?_⟩
    · simp [leftJoinRows, hfil]
    · simp [nullRowOf, objKeys, List.map_map]
    · intro p hp
      simp [nullRowOf] at hp
      obtain ⟨k, _, rfl⟩ := hp
      rfl
  · intro h2
    subst h2
    have hform : leftJoinRows d1 [] t1 t2 k1 k2 =
        d1.map (fun r1 => mergeRows r1 [] t1 t2) := by
      have := flatMapSingleton (fun r1 => mergeRows r1 [] t1 t2) d1
      simpa [leftJoinRows, nullRowOf, objKeys] using this
    refine ⟨hform, ?_, ?_⟩
    · rw [hform, List.length_map]
    · intro r1
      rfl

/-- Lexicographic string order is asymmetric. -/
theorem strLtAsymm : ∀ s t : List Char, strLt s t = true → strLt t s = false := by
  intro s
  induction s with
  | nil => intro t h; cases t <;> simp [strLt] at h ⊢
  | cons a as ih =>
    intro t h
    cases t with
    | nil => simp [strLt] at h
    | cons bq bs =>
      simp only [strLt] at h ⊢
      by_cases hab : a = bq
      · subst hab
        simp only [if_pos rfl] at h ⊢
        exact ih bs h
      · have hba : ¬ bq = a := fun hh => hab hh.symm
        rw [if_neg hab] at h
        rw [if_neg hba]
        simp only [decide_eq_true_eq] at h
        simp only [decide_eq_false_iff_not]
        exact lt_asymm h

/-- The numeric comparison is asymmetric. -/
theorem numLtAsymm (x y : Option Int) (h : numLt x y = true) : numLt y x = false := by
  rcases x with _ | a <;> rcases y with _ | b <;> simp [numLt] at h ⊢
  omega

/-- JavaScript `<` on values is asymmetric. -/
theorem jsLtAsymm : ∀ u v : Value, jsLt u v = true → jsLt v u = false := by
  intro u v h
  cases u <;> cases v <;> simp only [jsLt] at h ⊢ <;>
    first
      | exact strLtAsymm _ _ h
      | exact numLtAsymm _ _ h

/-- The ORDER BY comparator is antisymmetric. -/
theorem cmpRowNeg : ∀ (keys : List SortKey) (a b : Row),
    cmpRow keys b a = -(cmpRow keys a b) := by
  intro keys
  induction keys with
  | nil => intro a b; simp [cmpRow]
  | cons k rest ih =>
    intro a b
    simp only [cmpRow, jsGt]
    by_cases h1 : jsLt (objGet a k.col) (objGet b k.col) = true
    · have h2 := jsLtAsymm _ _ h1
      by_cases hd : k.dir = "DESC".data <;> simp [h1, h2, hd]
    · by_cases h2 : jsLt (objGet b k.col) (objGet a k.col) = true
      · have h1b := jsLtAsymm _ _ h2
        by_cases hd : k.dir = "DESC".data <;> simp [h1b, h2, hd]
      · simp only [Bool.not_eq_true] at h1 h2
        simp [h1, h2]
        exact ih a b

/-- [a, b] as a sublist decomposes the ambient list. -/
theorem pairSublistDecomp {α : Type} {a b : α} :
    ∀ {L : List α}, [a, b].Sublist L → ∃ m1 m2 m3, L = m1 ++ a :: m2 ++ b :: m3 := by
  intro L h
  induction L with
  | nil => cases h
  | cons c L ih =>
    cases h with
    | cons _ h2 =>
      obtain ⟨m1, m2, m3, rfl⟩ := ih h2
      exact ⟨c :: m1, m2, m3, rfl⟩
    | cons₂ _ h2 =>
      have hb : b ∈ L := h2.subset (by simp)
      obtain ⟨s, t, rfl⟩ := List.append_of_mem hb
      exact ⟨[], s, t, rfl⟩

/-- C8: the ORDER BY sort is stable — whenever the comparator is transitive
on the rows being sorted (as it is for type-consistent sort keys, the only
case where JavaScript defines the sort order at all), two rows that compare
equal keep their relative input order — a key tie defers to the remaining
keys, and the concrete two-row tie keeps its input order. -/
theorem c8_order_by_stable (clause : List Char) (data : List Row)
    (l1 l2 l3 : List Row) (a b : Row)
    (hdata : data = l1 ++ a :: l2 ++ b :: l3)
    (htie : cmpRow (parseOrderBy clause) a b = 0)
    (htrans : ∀ x ∈ data, ∀ y ∈ data, ∀ z ∈ data,
      cmpRow (parseOrderBy clause) x y ≤ 0 → cmpRow (parseOrderBy clause) y z ≤ 0 →
      cmpRow (parseOrderBy clause) x z ≤ 0) :
    (∃ m1 m2 m3, orderBy data clause = m1 ++ a :: m2 ++ b :: m3)
    ∧ (∀ (k : SortKey) (rest : List SortKey) (x y : Row),
        jsLt (objGet x k.col) (objGet y k.col) = false →
        jsGt (objGet x k.col) (objGet y k.col) = false →
        cmpRow (k :: rest) x y = cmpRow rest x y)
    ∧ orderBy [[("k", Value.num 1), ("v", Value.str "a")],
               [("k", Value.num 1), ("v", Value.str "b")]] "k".data =
        [[("k", Value.num 1), ("v", Value.str "a")],
         [("k", Value.num 1), ("v", Value.str "b")]] := by
  refine ⟨?_, ?_, ?_⟩
  · -- stability via the stable merge sort on the membership subtype
    have hab : [a, b].Sublist data := by
      rw [hdata]
      have ha1 : [a].Sublist (l1 ++ a :: l2) :=
        ((List.nil_sublist l2).cons₂ a).trans (List.sublist_append_right l1 (a :: l2))
      have hb1 : [b].Sublist (b :: l3) := (List.nil_sublist l3).cons₂ b
      exact ha1.append hb1
    have hmem : ∀ r ∈ [a, b], r ∈ data := fun r hr => hab.subset hr
    obtain ⟨lp, hlp, heq⟩ := List.sublist_map_iff.mp
      (by rw [List.attach_map_subtype_val]; exact hab :
        [a, b].Sublist (List.map Subtype.val data.attach))
    match lp, heq with
    | [x, y], heq =>
      have hxa : x.val = a := by injection heq with h1 _; exact h1.symm
      have hyb : y.val = b := by
        injection heq with _ h2
        injection h2 with h2 _
        exact h2.symm
      have trans2 : ∀ p q r : {t : Row // t ∈ data},
          (fun p q : {t : Row // t ∈ data} =>
            decide (cmpRow (parseOrderBy clause) p.val q.val ≤ 0)) p q = true →
          (fun p q : {t : Row // t ∈ data} =>
            decide (cmpRow (parseOrderBy clause) p.val q.val ≤ 0)) q r = true →
          (fun p q : {t : Row // t ∈ data} =>
            decide (cmpRow (parseOrderBy clause) p.val q.val ≤ 0)) p r = true := by
        intro p q r h1 h2
        simp only [decide_eq_true_eq] at h1 h2 ⊢
        exact htrans _ p.2 _ q.2 _ r.2 h1 h2
      have total2 : ∀ p q : {t : Row // t ∈ data},
          ((fun p q : {t : Row // t ∈ data} =>
            decide (cmpRow (parseOrderBy clause) p.val q.val ≤ 0)) p q ||
           (fun p q : {t : Row // t ∈ data} =>
            decide (cmpRow (parseOrderBy clause) p.val q.val ≤ 0)) q p) = true := by
        intro p q
        simp only [Bool.or_eq_true, decide_eq_true_eq]
        rcases le_or_lt (cmpRow (parseOrderBy clause) p.val q.val) 0 with h | h
        · exact Or.inl h
        · refine Or.inr ?_
          rw [cmpRowNeg]
          omega
      have hle : (fun p q : {t : Row // t ∈ data} =>
          decide (cmpRow (parseOrderBy clause) p.val q.val ≤ 0)) x y = true := by
        simp only [decide_eq_true_eq, hxa, hyb, htie]
        omega
      have hsorted := List.pair_sublist_mergeSort trans2 total2 hle hlp
      have hmapped := hsorted.map Subtype.val
      have hcomm : List.map Subtype.val
          (data.attach.mergeSort (fun p q : {t : Row // t ∈ data} =>
            decide (cmpRow (parseOrderBy clause) p.val q.val ≤ 0))) =
          (List.map Subtype.val data.attach).mergeSort
            (fun r1 r2 : Row => decide (cmpRow (parseOrderBy clause) r1 r2 ≤ 0)) :=
        List.map_mergeSort (fun p _ q _ => rfl)
      rw [hcomm, List.attach_map_subtype_val] at hmapped
      simp only [List.map_cons, List.map_nil, hxa, hyb] at hmapped
      exact pairSublistDecomp hmapped
  · intro k rest x y h1 h2
    simp [cmpRow, h1, h2, jsGt]
    simp [jsGt] at h2
    simp [h2]
  · have hsorted : List.Pairwise
        (fun r1 r2 : Row =>
          (decide (cmpRow (parseOrderBy "k".data) r1 r2 ≤ 0)) = true)
        [[("k", Value.num 1), ("v", Value.str "a")],
         [("k", Value.num 1), ("v", Value.str "b")]] := by
      decide
    simpa [orderBy] using List.mergeSort_of_sorted hsorted


/-- C7 witness: concrete two-row/one-row tables — the unmatched left row
appears null-extended, and an empty right table gives one merged row per
left row. -/
theorem c7_left_join_preserves_left_witness :
    (∃ r2, mergeRows [("id", Value.num 2)] r2 "users" "orders" ∈
      leftJoinRows [[("id", Value.num 1)], [("id", Value.num 2)]]
        [[("uid", Value.num 1), ("amt", Value.num 5)]] "users" "orders" "id" "uid")
    ∧ mergeRows [("id", Value.num 2)]
        (nullRowOf [[("uid", Value.num 1), ("amt", Value.num 5)]]) "users" "orders" ∈
      leftJoinRows [[("id", Value.num 1)], [("id", Value.num 2)]]
        [[("uid", Value.num 1), ("amt", Value.num 5)]] "users" "orders" "id" "uid"
    ∧ (leftJoinRows [[("id", Value.num 1)]] [] "users" "orders" "id" "uid").length = 1 := by
  have h := c7_left_join_preserves_left [[("id", Value.num 1)], [("id", Value.num 2)]]
    [[("uid", Value.num 1), ("amt", Value.num 5)]] "users" "orders" "id" "uid"
  have h2 := c7_left_join_preserves_left [[("id", Value.num 1)]] [] "users" "orders" "id" "uid"
  refine ⟨h.1 _ (by decide), (h.2.1 _ (by decide) (by decide)).1, ?_⟩
  simpa using (h2.2.2 rfl).2.1

/-- C8 witness: the concrete tied pair, through the stability theorem. -/
theorem c8_order_by_stable_witness :
    ∃ m1 m2 m3, orderBy [[("k", Value.num 1), ("v", Value.str "a")],
        [("k", Value.num 1), ("v", Value.str "b")]] "k".data =
      m1 ++ [("k", Value.num 1), ("v", Value.str "a")] :: m2 ++
        [("k", Value.num 1), ("v", Value.str "b")] :: m3 :=
  (c8_order_by_stable "k".data
    [[("k", Value.num 1), ("v", Value.str "a")], [("k", Value.num 1), ("v", Value.str "b")]]
    [] [] [] [("k", Value.num 1), ("v", Value.str "a")] [("k", Value.num 1), ("v", Value.str "b")]
    rfl (by decide) (by decide)).1

end Claims

end LocalDB
